import Mathlib

/-!
Verification development for the FacePro facial-recognition system.

The definitions below are a shallow embedding of the Python sources under
`src/facial_system/`:

* `database_utils.py` — the user registry (`users.json`): `load_users`,
  `get_next_user_id`, `register_user`, `delete_user`.  The registry is
  modelled as an explicit list of records plus the set of per-user image
  directories; file I/O becomes state passing.
* `recognize_face.py` — the recognition loop: the liveness filter
  (lines 309-330), the distance matcher `_find_best_match` (118-145), the
  classifier path (256-291), the stability gate (339-356, 486-489, 515-518),
  the active-id re-check (492-499) and the access logger `_log_access_event`
  (92-115).  One loop iteration is the pure function `processFrame`; the
  outcome of `DeepFace.represent` and the camera pixels are inputs.
* `capture_faces.py` — the enrollment capture loop and its rollback.
* `train_embeddings.py` / `sql_database.py` — the embedding builder
  `generate_embeddings` and the SQLite `replace_embeddings`, modelled over
  explicit store states.

Python floats are embedded as real numbers (distances, which pass through a
square root) or rationals (pixel means, probabilities, times); machine ints
as `Int`; fallible conversions such as `int(u.get("id"))` as `Option Int`.
-/

namespace FacePro

/-! ## Registry model (`database_utils.py`)

A record of `users.json`.  `id` is `none` when the JSON record has no
usable `id` key (Python reads it with `u.get("id", default)`), `cpf` is
`none` when the optional key is absent. -/

structure UserRec where
  id : Option ℤ
  name : Option String
  cpf : Option String
deriving Repr, DecidableEq

/-- The on-disk state touched by `database_utils.py`: the decoded
`users.json` list and the set of ids whose `images/<id>/` directory
exists. -/
structure Registry where
  users : List UserRec
  imageDirs : List ℤ
deriving Repr, DecidableEq

/-- Maximum of a list of integers, 0 on the empty list (the generator
`max(int(u.get("id", 0)) for u in users)` is only evaluated on a non-empty
list). -/
def maxList : List ℤ → ℤ
  | [] => 0
  | x :: xs => xs.foldl max x

/-- Model of `get_next_user_id` (`database_utils.py` lines 53-61): 1 on an
empty registry, otherwise the maximum of `int(u.get("id", 0))` plus one. -/
def getNextUserId (users : List UserRec) : ℤ :=
  match users with
  | [] => 1
  | u :: us => maxList ((u :: us).map (fun v => v.id.getD 0)) + 1

/-- Model of `register_user` (`database_utils.py` lines 64-79): computes the
next id, appends the record (the `cpf` key only when non-empty) and saves.
Returns the new id together with the saved list. -/
def registerUser (users : List UserRec) (nameArg : String) (cpf : String) :
    ℤ × List UserRec :=
  let uid := getNextUserId users
  (uid, users ++ [{ id := some uid, name := some nameArg,
                    cpf := if cpf = "" then none else some cpf }])

/-- Model of `delete_user` (`database_utils.py` lines 82-111).  Keeps the
records whose `int(u.get("id", -1))` differs from the requested id; when
nothing was removed it returns `false` without rewriting `users.json`,
otherwise it saves the remaining list and, when `deleteImages` is set,
removes the `images/<id>/` directory if it exists.  The third component
records whether `users.json` was rewritten. -/
def deleteUser (st : Registry) (userId : ℤ) (deleteImages : Bool) :
    Bool × Registry × Bool :=
  let remaining := st.users.filter (fun u => u.id.getD (-1) ≠ userId)
  if remaining.length = st.users.length then
    (false, st, false)
  else
    let dirs := if deleteImages then st.imageDirs.filter (fun d => d ≠ userId)
                else st.imageDirs
    (true, { users := remaining, imageDirs := dirs }, true)

/-! ## Liveness filter (`recognize_face.py` lines 309-330)

A face crop is the 64×64 grayscale resize of the detected region, modelled
as a flat list of pixel intensities; the numpy shape test becomes a length
test.  `diff.mean()` of `cv2.absdiff` is the mean absolute difference. -/

/-- Mean absolute pixel difference between the current crop and the
previous one (`cv2.absdiff(gray_roi, prev).mean()`). -/
def meanAbsDiff (c p : List ℤ) : ℚ :=
  (((c.zip p).map (fun q => ((q.1 - q.2).natAbs : ℚ))).sum) / (c.length : ℚ)

/-- Threshold `LIVENESS_DIFF_THRESHOLD = 1.0` of `recognize_face.py`. -/
def LIVENESS_DIFF_THRESHOLD : ℚ := 1

/-- Threshold `LIVENESS_STATIC_FRAMES = 10` of `recognize_face.py`. -/
def LIVENESS_STATIC_FRAMES : ℕ := 10

/-- One liveness update (`recognize_face.py` lines 315-325): when a
previous crop of matching shape exists and the mean difference is below
the threshold the static counter is incremented, otherwise it is reset;
the crop unconditionally becomes the new previous crop.  Returns the new
counter and the new previous crop. -/
def livenessStep (prev : Option (List ℤ)) (staticFrames : ℕ) (c : List ℤ) :
    ℕ × Option (List ℤ) :=
  let n :=
    match prev with
    | some p =>
      if p.length = c.length then
        if meanAbsDiff c p < LIVENESS_DIFF_THRESHOLD then staticFrames + 1 else 0
      else 0
    | none => 0
  (n, some c)

/-- The static-counter values along a sequence of crops, one per frame. -/
def livenessTrace (prev : Option (List ℤ)) (staticFrames : ℕ) :
    List (List ℤ) → List ℕ
  | [] => []
  | c :: cs =>
    let r := livenessStep prev staticFrames c
    r.1 :: livenessTrace r.2 r.1 cs

/-! ## Stability gate (`recognize_face.py` lines 339-356)

State of the ~3-second debounce: the pending candidate id, the time the
candidate started being seen, and the last confirmed id of the session.
Times are rationals (seconds). -/

structure GateState where
  pendingId : Option ℤ
  pendingStart : Option ℚ
  lastRecognized : Option ℤ
deriving Repr, DecidableEq

/-- Stability window `timedelta(seconds=3)`. -/
def STABILITY_WINDOW : ℚ := 3

/-- One gate update for an accepted match id `cid` at time `now`
(`recognize_face.py` lines 341-356): a different id than the pending one
restarts the window; the same id confirms — returning `true`, which makes
the caller log one access event — exactly when the window has elapsed and
`cid` differs from the last confirmed id. -/
def gateStep (gs : GateState) (cid : ℤ) (now : ℚ) : GateState × Bool :=
  if gs.pendingId ≠ some cid then
    ({ pendingId := some cid, pendingStart := some now,
       lastRecognized := gs.lastRecognized }, false)
  else
    match gs.pendingStart with
    | some t0 =>
      if now - t0 ≥ STABILITY_WINDOW ∧ some cid ≠ gs.lastRecognized then
        ({ gs with lastRecognized := some cid }, true)
      else (gs, false)
    | none => (gs, false)

/-- Runs the gate over a stream of accepted (id, time) frames, collecting
the ids of the emitted access events in order. -/
def gateRun (gs : GateState) : List (ℤ × ℚ) → GateState × List ℤ
  | [] => (gs, [])
  | f :: fs =>
    let r := gateStep gs f.1 f.2
    let rest := gateRun r.1 fs
    (rest.1, (if r.2 then [f.1] else []) ++ rest.2)

/-! ## Enrollment capture loop (`capture_faces.py`)

Per-frame input of the capture loop: whether `cap.read()` succeeded,
the resized gray face crop when a face with a usable bounding box was
represented (`none` covers both the no-face and the unusable-box cases,
which leave the counters untouched), and whether the quit key was hit. -/

structure CapFrame where
  readOk : Bool
  crop : Option (List ℤ)
  quitKey : Bool
deriving Repr, DecidableEq

/-- Mutable state of the capture loop (`capture_faces.py` lines 65-78). -/
structure CapState where
  prev : Option (List ℤ)
  staticFrames : ℕ
  liveStable : ℕ
  frameCount : ℕ
  captured : ℕ
deriving Repr, DecidableEq

/-- Parameter `STABLE_LIVE_FRAMES = 5` of `capture_faces.py`. -/
def STABLE_LIVE_FRAMES : ℕ := 5

/-- Parameter `CAPTURE_INTERVAL = 5` of `capture_faces.py`. -/
def CAPTURE_INTERVAL : ℕ := 5

/-- One iteration of the capture loop body (`capture_faces.py` lines
81-188) given the state and the frame input.  Returns the new state and
whether the loop breaks after this frame (read failure, target count
reached, or quit key). -/
def captureStep (numImages : ℕ) (s : CapState) (f : CapFrame) :
    CapState × Bool :=
  if ¬ f.readOk then (s, true)
  else
    let s1 :=
      match f.crop with
      | none => s
      | some c =>
        let r := livenessStep s.prev s.staticFrames c
        if r.1 ≥ LIVENESS_STATIC_FRAMES then
          { s with prev := r.2, staticFrames := r.1, liveStable := 0 }
        else
          { s with prev := r.2, staticFrames := r.1,
                   liveStable := s.liveStable + 1 }
    let hasLive := match f.crop with
      | none => false
      | some c => (livenessStep s.prev s.staticFrames c).1 < LIVENESS_STATIC_FRAMES
    if hasLive && decide (s1.liveStable ≥ STABLE_LIVE_FRAMES) then
      let fc := s1.frameCount + 1
      if fc % CAPTURE_INTERVAL = 0 ∧ s1.captured < numImages then
        let s2 := { s1 with frameCount := fc, captured := s1.captured + 1 }
        if s2.captured ≥ numImages then (s2, true)
        else (s2, f.quitKey)
      else ({ s1 with frameCount := fc }, f.quitKey)
    else (s1, f.quitKey)

/-- Runs the capture loop until it breaks or the frame stream ends. -/
def captureRun (numImages : ℕ) (s : CapState) : List CapFrame → CapState
  | [] => s
  | f :: fs =>
    let r := captureStep numImages s f
    if r.2 then r.1 else captureRun numImages r.1 fs

/-- Initial state of the capture loop. -/
def capInit : CapState :=
  { prev := none, staticFrames := 0, liveStable := 0, frameCount := 0,
    captured := 0 }

/-- Model of `capture_user_faces` (`capture_faces.py` lines 34-203).
When the capture device cannot be opened it returns `none` before touching
the registry.  Otherwise it registers the user, creates the image
directory, runs the capture loop over the session's frames and — when zero
images were captured — rolls the user back through
`delete_user(user_id, delete_images=True)`. -/
def captureUserFaces (deviceOpens : Bool) (frames : List CapFrame)
    (numImages : ℕ) (st : Registry) (nameArg cpf : String) :
    Option ℤ × Registry :=
  if ¬ deviceOpens then (none, st)
  else
    let r := registerUser st.users nameArg cpf
    let uid := r.1
    let st1 : Registry :=
      { users := r.2,
        imageDirs := if uid ∈ st.imageDirs then st.imageDirs
                     else uid :: st.imageDirs }
    let final := captureRun numImages capInit frames
    if final.captured = 0 then
      let d := deleteUser st1 uid true
      (none, d.2.1)
    else (some uid, st1)

/-! ## Match engine (`recognize_face.py` lines 118-145 and 256-291)

Descriptors are lists of reals; distances go through a square root, so
this section is noncomputable.  Classifier probabilities never meet a
square root and are modelled as rationals. -/

/-- A record of `embeddings.pkl`: `id` is `none` when `int(e.get("id"))`
would fail, mirroring lines 183-189 of `recognize_face.py`. -/
structure EmbRec where
  id : Option ℤ
  name : Option String
  cpf : Option String
  vec : List ℝ

/-- The active-subject filter applied to the loaded embeddings
(`recognize_face.py` lines 181-189): keep the records whose id converts to
an integer that is in the active-subject id set. -/
def filterActive (embs : List EmbRec) (active : List ℤ) : List EmbRec :=
  embs.filter (fun e =>
    match e.id with
    | some sid => decide (sid ∈ active)
    | none => false)

noncomputable section

/-- Sum of squares of the components of a vector. -/
def sumSq (v : List ℝ) : ℝ := (v.map (fun x => x ^ 2)).sum

/-- Euclidean (L2) norm, as computed by `np.linalg.norm`. -/
def l2norm (v : List ℝ) : ℝ := Real.sqrt (sumSq v)

/-- Normalization with the epsilon guard of `_find_best_match`
(`recognize_face.py` lines 130-136): divide every component by the norm
plus `1e-8`. -/
def normEps (v : List ℝ) : List ℝ := v.map (fun x => x / (l2norm v + 1e-8))

/-- Componentwise difference of two vectors. -/
def vsub (a b : List ℝ) : List ℝ := List.zipWith (fun x y => x - y) a b

/-- Euclidean distance between two vectors. -/
def euclid (a b : List ℝ) : ℝ := l2norm (vsub a b)

/-- First index of the minimum of `best :: l`, scanning with current best
value `best` at index `bi`, next index `i`; this is `np.argmin`, which
keeps the earliest minimum. -/
def argminAux (best : ℝ) (bi : ℕ) (i : ℕ) : List ℝ → ℕ
  | [] => bi
  | x :: xs => if x < best then argminAux x i (i + 1) xs
               else argminAux best bi (i + 1) xs

/-- Model of `np.argmin`: the first index of the minimum (0 on the empty
list, where numpy would raise). -/
def argminIdx : List ℝ → ℕ
  | [] => 0
  | x :: xs => argminAux x 0 1 xs

/-- Threshold `DEFAULT_THRESHOLD = 0.6` of `recognize_face.py`. -/
def DEFAULT_THRESHOLD : ℝ := 0.6

/-- The distances of the query to every reference, both sides normalized
(the `dists` array of `_find_best_match`). -/
def distList (q : List ℝ) (embs : List EmbRec) : List ℝ :=
  embs.map (fun r => euclid (normEps r.vec) (normEps q))

/-- Model of `_find_best_match` (`recognize_face.py` lines 118-145): on a
non-empty reference list, normalize the references and the query, take the
Euclidean distances, select the first minimum and accept it exactly when
it is strictly below the threshold; the best distance is returned for
diagnostics either way. -/
def findBestMatch (q : List ℝ) (embs : List EmbRec) (t : ℝ) :
    Option EmbRec × Option ℝ :=
  match embs with
  | [] => (none, none)
  | e :: es =>
    let dists := distList q (e :: es)
    let idx := argminIdx dists
    let best := dists.getD idx 0
    if best < t then (some ((e :: es).getD idx e), some best)
    else (none, some best)

end

/-- First index of the maximum of a rational list (`np.argmax` over the
probability row), scanning with the current best. -/
def argmaxAux (best : ℚ) (bi : ℕ) (i : ℕ) : List ℚ → ℕ
  | [] => bi
  | x :: xs => if x > best then argmaxAux x i (i + 1) xs
               else argmaxAux best bi (i + 1) xs

/-- Model of `np.argmax` on a probability row. -/
def argmaxIdx : List ℚ → ℕ
  | [] => 0
  | x :: xs => argmaxAux x 0 1 xs

/-- Threshold `CLASSIFIER_MIN_PROBA = 0.8` of `recognize_face.py`. -/
def CLASSIFIER_MIN_PROBA : ℚ := 8 / 10

/-- The trained SVM of the classifier bundle: `predict_proba` on a single
query either raises (modelled by `Except.error`) or returns one row of
per-class probabilities, aligned with `classes_`. -/
structure SvmModel where
  predictProba : List ℝ → Except Unit (List ℚ)
  classes : List ℤ

/-- Per-subject display metadata stored in the classifier bundle
(`classifier_meta[id] = {"name": ..., "cpf": ...}`). -/
structure SubjectMeta where
  name : String
  cpf : Option String

/-- A match candidate (the dict bound to `match` in the recognition loop):
either the classifier's `{"id", "name", "cpf"}` dict or a reference
record from the distance search. -/
structure MatchRec where
  id : Option ℤ
  name : Option String
  cpf : Option String
deriving Repr, DecidableEq

/-- The classifier path (`recognize_face.py` lines 257-277): predict the
probability row, take the top class, and accept it only when its
probability reaches `CLASSIFIER_MIN_PROBA` and the predicted id is in the
active-subject set.  Any exception (prediction failure, empty row, index
out of range on `classes_`) leaves the match `none`.  The second component
is `best_proba`, which the code assigns before the acceptance test. -/
def classifierPath (model : SvmModel) (meta : ℤ → Option SubjectMeta)
    (active : List ℤ) (q : List ℝ) : Option MatchRec × Option ℚ :=
  match model.predictProba q with
  | .error _ => (none, none)
  | .ok probs =>
    match probs with
    | [] => (none, none)
    | p :: ps =>
      let bi := argmaxIdx (p :: ps)
      let bp := (p :: ps).getD bi 0
      if bi < model.classes.length then
        let pid := model.classes.getD bi 0
        if bp ≥ CLASSIFIER_MIN_PROBA ∧ pid ∈ active then
          let sm := meta pid
          (some { id := some pid,
                  name := some (match sm with
                                | some m => m.name
                                | none => toString pid),
                  cpf := match sm with
                         | some m => m.cpf
                         | none => none }, some bp)
        else (none, some bp)
      else (none, some bp)

/-- View of a reference record as a match candidate (the distance path
binds the reference dict itself to `match`). -/
def toMatch (e : EmbRec) : MatchRec :=
  { id := e.id, name := e.name, cpf := e.cpf }

noncomputable section

/-- The per-frame match decision (`recognize_face.py` lines 252-291):
try the classifier first when one is loaded; when it produced no accepted
match, fall back to the distance search over the active-filtered
references (logging a warning when that list is empty).  Returns the
match, the distance (distance path only) and `best_proba`. -/
def computeMatch (model : Option SvmModel) (meta : ℤ → Option SubjectMeta)
    (active : List ℤ) (filtered : List EmbRec) (q : List ℝ) (t : ℝ) :
    Option MatchRec × Option ℝ × Option ℚ :=
  let cr := match model with
    | none => ((none : Option MatchRec), (none : Option ℚ))
    | some c => classifierPath c meta active q
  match cr.1 with
  | some m => (some m, none, cr.2)
  | none =>
    match filtered with
    | [] => (none, none, cr.2)
    | e :: es =>
      let r := findBestMatch q (e :: es) t
      (r.1.map toMatch, r.2, cr.2)

end

/-! ## One iteration of the recognition loop (`recognize_face.py` lines 218-553) -/

/-- The result of `DeepFace.represent` on a frame when a face was found:
the query descriptor, the `facial_area` box when it is a dict, and the
64×64 gray resize of the face region (read off the frame's pixels when the
clamped box is valid). -/
structure RepInfo where
  emb : List ℝ
  area : Option (ℤ × ℤ × ℤ × ℤ)
  crop : List ℤ

/-- Per-frame input of the recognition loop: the representation outcome
(`none` when no face was detected or representation failed — both leave
`reps` unset), the frame dimensions used for clamping, and the current
wall-clock time in seconds. -/
structure FrameInput where
  rep : Option RepInfo
  frameW : ℤ
  frameH : ℤ
  now : ℚ

/-- Clamping of `facial_area` to the frame (`recognize_face.py` lines
295-307): coordinates are clamped to be non-negative and inside the frame
and the box is kept only when it stays non-degenerate. -/
def clampBox (w h : ℤ) (a : ℤ × ℤ × ℤ × ℤ) : Option (ℤ × ℤ × ℤ × ℤ) :=
  let x := max 0 a.1
  let y := max 0 a.2.1
  let bw := max 0 a.2.2.1
  let bh := max 0 a.2.2.2
  let x2 := min w (x + bw)
  let y2 := min h (y + bh)
  if x2 > x ∧ y2 > y then some (x, y, x2 - x, y2 - y) else none

/-- Session state carried across recognition frames: the liveness state
and the stability-gate state. -/
structure SessState where
  prevCrop : Option (List ℤ)
  staticFrames : ℕ
  gate : GateState
deriving Repr, DecidableEq

/-- A confirmed access event as handed to `_log_access_event`. -/
structure AccessEvent where
  id : ℤ
  name : Option String
  cpf : Option String
  time : ℚ
deriving Repr, DecidableEq

/-- Session-wide configuration loaded before the loop: the optional
classifier bundle (model and metadata), the active-subject id set, the
active-filtered reference records, and the distance threshold. -/
structure SessConfig where
  model : Option SvmModel
  meta : ℤ → Option SubjectMeta
  active : List ℤ
  filtered : List EmbRec
  threshold : ℝ

/-- The active-id re-check applied before the display logic
(`recognize_face.py` lines 492-499): a match whose id does not convert to
an integer in the active-subject set is discarded. -/
def recheckMatch (active : List ℤ) (m : Option MatchRec) : Option MatchRec :=
  match m with
  | none => none
  | some mr =>
    match mr.id with
    | none => none
    | some mid => if mid ∈ active then some mr else none

/-- Observable outcome of one loop iteration: the new session state, the
access events logged this frame, the match used for the on-screen text
(after the active-id re-check) and the liveness classification
(`none` when no valid face box was processed). -/
structure FrameOut where
  state : SessState
  events : List AccessEvent
  shown : Option MatchRec
  live : Option Bool
deriving DecidableEq

noncomputable section

/-- One iteration of the recognition loop (`recognize_face.py` lines
218-553), given the per-frame input.  Mirrors the code's order: matching,
box clamping, the liveness update, the stability gate (which logs the
access event), the active-id re-check, and the reset of the pending state
when no match survived. -/
def processFrame (cfg : SessConfig) (s : SessState) (inp : FrameInput) :
    FrameOut :=
  match inp.rep with
  | none => { state := s, events := [], shown := none, live := none }
  | some rep =>
    let mr := computeMatch cfg.model cfg.meta cfg.active cfg.filtered
                rep.emb cfg.threshold
    let match0 := mr.1
    let boxed := rep.area.bind (clampBox inp.frameW inp.frameH)
    let lv :=
      match boxed with
      | none => (s.staticFrames, s.prevCrop, (none : Option Bool))
      | some _ =>
        let r := livenessStep s.prevCrop s.staticFrames rep.crop
        (r.1, r.2, some (decide (r.1 < LIVENESS_STATIC_FRAMES)))
    let isLive := lv.2.2
    let gr :=
      match boxed, match0 with
      | some _, some m =>
        if isLive = some false then (s.gate, ([] : List AccessEvent))
        else
          match m.id with
          | some cid =>
            let g := gateStep s.gate cid inp.now
            (g.1, if g.2 then
                    [{ id := cid, name := m.name, cpf := m.cpf,
                       time := inp.now }]
                  else [])
          | none =>
            ({ pendingId := none, pendingStart := none,
               lastRecognized := s.gate.lastRecognized }, [])
      | _, _ => (s.gate, [])
    let match1 := recheckMatch cfg.active match0
    let gs2 :=
      match match1 with
      | none => { pendingId := none, pendingStart := none,
                  lastRecognized := gr.1.lastRecognized }
      | some _ => gr.1
    { state := { prevCrop := lv.2.1, staticFrames := lv.1, gate := gs2 },
      events := gr.2, shown := match1, live := isLive }

end

/-! ## Access logger (`recognize_face.py` lines 92-115)

The audit file is a list of semicolon-delimited rows, each a list of
cell strings; `none` models an absent file.  The csv writer renders a
Python `None` cell as the empty string and an int in decimal. -/

/-- The header row the code writes on first creation
(`writer.writerow(["timestamp", "user_id", "name", "cpf"])`). -/
def accessHeader : List String := ["timestamp", "user_id", "name", "cpf"]

/-- The data row for one confirmed access: timestamp, `user.get("id")`,
`user.get("name")` and `user.get("cpf", "")`. -/
def accessRow (u : MatchRec) (ts : String) : List String :=
  [ts, (u.id.map toString).getD "", u.name.getD "", u.cpf.getD ""]

/-- Model of `_log_access_event`: append one row, writing the header first
exactly when the file did not exist; the whole body is wrapped in a
`try/except` that logs and swallows any failure, modelled by the
`writeFails` flag leaving the file untouched.  The function always
returns (it never propagates an exception into the loop). -/
def logAccessEvent (writeFails : Bool) (file : Option (List (List String)))
    (u : MatchRec) (ts : String) : Option (List (List String)) :=
  if writeFails then file
  else
    some (match file with
          | none => [accessHeader, accessRow u ts]
          | some rows => rows ++ [accessRow u ts])

/-! ## Embedding builder (`train_embeddings.py`) and SQLite copy
(`sql_database.py`)

The image inventory is a function from a user id to the extraction
outcomes of the sorted images of `images/<id>/` (`none` when the
directory does not exist).  One outcome is `Except.error` when
`DeepFace.represent` raised (logged and skipped), `.ok none` when it
returned an empty list, and `.ok (some v)` when it produced the
descriptor `v`. -/

/-- Outcome of extracting one stored image. -/
def ExtractOutcome := Except Unit (Option (List ℝ))

/-- Model of `_collect_image_paths` (`train_embeddings.py` lines 26-42):
for each registry user with an `id` and an existing image directory, one
entry per image, carrying the user's id, name and cpf. -/
def collectImagePaths (users : List UserRec)
    (fs : ℤ → Option (List ExtractOutcome)) :
    List (ℤ × Option String × Option String × ExtractOutcome) :=
  users.flatMap (fun u =>
    match u.id with
    | none => []
    | some uid =>
      match fs uid with
      | none => []
      | some imgs => imgs.map (fun im => (uid, u.name, u.cpf, im)))

/-- The embedding records a builder run derives from the collected
images: failed or empty extractions are skipped with a warning. -/
def buildEmbeddings
    (infos : List (ℤ × Option String × Option String × ExtractOutcome)) :
    List EmbRec :=
  infos.filterMap (fun it =>
    match it.2.2.2 with
    | .error _ => none
    | .ok none => none
    | .ok (some v) =>
      some { id := some it.1, name := it.2.1, cpf := it.2.2.1, vec := v })

/-- Model of `generate_embeddings` (`train_embeddings.py` lines 45-104)
as a function of the registry, the image inventory, whether the pickle
write succeeds, and the previously persisted descriptor set.  Returns the
count it reports and the descriptor set persisted afterwards.  The code
returns 0 without touching the file when no images were collected, when
no embedding could be produced, or when the write failed. -/
def generateEmbeddings (users : List UserRec)
    (fs : ℤ → Option (List ExtractOutcome)) (writeOk : Bool)
    (prior : Option (List EmbRec)) : ℕ × Option (List EmbRec) :=
  let infos := collectImagePaths users fs
  if infos.isEmpty then (0, prior)
  else
    let embs := buildEmbeddings infos
    if embs.isEmpty then (0, prior)
    else if writeOk then (embs.length, some embs)
    else (0, prior)

/-- State of the SQLite store: the `subjects` table and the `embeddings`
table, each row of the latter carrying the subject id and the stored
vector (the autoincrement key and image path are not modelled). -/
structure SqlDb where
  subjects : List (ℤ × String × Option String)
  embRows : List (ℤ × List ℝ)

/-- Model of `upsert_subject` (`sql_database.py` lines 68-97): insert or
update the row keyed by the subject id. -/
def upsertSubject (subs : List (ℤ × String × Option String))
    (row : ℤ × String × Option String) : List (ℤ × String × Option String) :=
  if subs.any (fun s => s.1 = row.1) then
    subs.map (fun s => if s.1 = row.1 then row else s)
  else subs ++ [row]

/-- Model of `replace_embeddings` (`sql_database.py` lines 100-150): on a
non-empty input, delete every row of the `embeddings` table and insert one
row per record (upserting its subject), all in one committed transaction;
on an empty input, return with the store untouched.  `none` models the
exception raised when a record's id does not convert (the transaction is
rolled back, leaving the store unchanged at the caller).
`sqlInsertStep` is the body of the insertion loop for one record. -/
def sqlInsertStep (acc : Option SqlDb) (e : EmbRec) : Option SqlDb :=
  match acc, e.id with
  | some st, some sid =>
    some { subjects := upsertSubject st.subjects (sid, e.name.getD "", e.cpf),
           embRows := st.embRows ++ [(sid, e.vec)] }
  | _, _ => none

def replaceEmbeddings (db : SqlDb) (embs : List EmbRec) : Option SqlDb :=
  if embs.isEmpty then some db
  else embs.foldl sqlInsertStep (some { subjects := db.subjects, embRows := [] })

/-! ## Helper lemmas -/

/-- An initial accumulator bounds `List.foldl max` from below. -/
lemma le_foldl_max (l : List ℤ) : ∀ b : ℤ, b ≤ l.foldl max b := by
  induction l with
  | nil => intro b; simp
  | cons x xs ih =>
    intro b
    calc b ≤ max b x := le_max_left b x
    _ ≤ xs.foldl max (max b x) := ih (max b x)

/-- Every member of the list bounds `List.foldl max` from below. -/
lemma mem_le_foldl_max (l : List ℤ) : ∀ b : ℤ, ∀ y ∈ l, y ≤ l.foldl max b := by
  induction l with
  | nil => intro b y hy; simp at hy
  | cons x xs ih =>
    intro b y hy
    rcases List.mem_cons.mp hy with h | h
    · subst h
      calc y ≤ max b y := le_max_right b y
      _ ≤ xs.foldl max (max b y) := le_foldl_max xs (max b y)
    · exact ih (max b x) y h

/-- Every member of a list bounds `maxList` from below. -/
lemma mem_le_maxList (l : List ℤ) (y : ℤ) (hy : y ∈ l) : y ≤ maxList l := by
  cases l with
  | nil => simp at hy
  | cons x xs =>
    rcases List.mem_cons.mp hy with h | h
    · subst h; exact le_foldl_max xs y
    · exact mem_le_foldl_max xs x y h

/-- The id the code would compare during deletion (`int(u.get("id", -1))`)
of any existing record is strictly below the next fresh id. -/
lemma idD_lt_next (users : List UserRec) (u : UserRec) (hu : u ∈ users) :
    u.id.getD (-1) < getNextUserId users := by
  cases users with
  | nil => simp at hu
  | cons v vs =>
    show u.id.getD (-1) < maxList ((v :: vs).map (fun w => w.id.getD 0)) + 1
    have h1 : u.id.getD 0 ≤ maxList ((v :: vs).map (fun w => w.id.getD 0)) :=
      mem_le_maxList _ _ (List.mem_map_of_mem _ hu)
    have h2 : u.id.getD (-1) ≤ u.id.getD 0 := by
      cases u.id with
      | none => norm_num
      | some a => simp
    omega

/-! ## Claim C10 — `delete_user` -/

/-- Claim C10: for every registry state and id, `delete_user` returns
`False` and leaves `users.json` unrewritten when no record carries the id
(under the code's comparison `int(u.get("id", -1)) == int(user_id)`), and
otherwise returns `True` having saved exactly the prior list with all
records of that id removed (and, with image deletion on, with the id's
image directory dropped). -/
theorem claim_C10_delete_user (st : Registry) (uid : ℤ) (di : Bool) :
    ((¬ ∃ u ∈ st.users, u.id.getD (-1) = uid) →
      deleteUser st uid di = (false, st, false)) ∧
    ((∃ u ∈ st.users, u.id.getD (-1) = uid) →
      deleteUser st uid di =
        (true,
         { users := st.users.filter (fun u => u.id.getD (-1) ≠ uid),
           imageDirs := if di then st.imageDirs.filter (fun d => d ≠ uid)
                        else st.imageDirs },
         true)) := by
  constructor
  · intro h
    have hall : ∀ u ∈ st.users, (fun u : UserRec => u.id.getD (-1) ≠ uid) u := by
      intro u hu
      by_contra hne
      exact h ⟨u, hu, by simpa using hne⟩
    have hfe : st.users.filter (fun u => decide (u.id.getD (-1) ≠ uid)) = st.users :=
      List.filter_eq_self.mpr (by intro a ha; simpa using hall a ha)
    unfold deleteUser
    rw [if_pos]
    simp only [hfe]
  · intro h
    obtain ⟨u, hu, hid⟩ := h
    have hlt : (st.users.filter (fun u => decide (u.id.getD (-1) ≠ uid))).length
        < st.users.length := by
      apply List.length_filter_lt_length_iff_exists.mpr
      exact ⟨u, hu, by simpa using hid⟩
    unfold deleteUser
    rw [if_neg (by omega)]

/-- Witness for C10 at a concrete registry: deleting id 2 from a registry
that only holds id 1 fails and leaves the state untouched. -/
theorem claim_C10_witness :
    deleteUser { users := [{ id := some 1, name := some "Ana", cpf := none }],
                 imageDirs := [] } 2 true =
      (false,
       { users := [{ id := some 1, name := some "Ana", cpf := none }],
         imageDirs := [] }, false) :=
  (claim_C10_delete_user
    { users := [{ id := some 1, name := some "Ana", cpf := none }],
      imageDirs := [] } 2 true).1 (by decide)

/-! ## Claim C9 — the access logger -/

/-- Counterexample to C9 as stated: on first creation the code writes the
header row with column name `user_id`, not `subject_id` as the claim's
header line `timestamp; subject_id; name; cpf` asserts. -/
theorem claim_C9_counterexample :
    logAccessEvent false none { id := some 7, name := some "Ana", cpf := none }
        "01/01/2025 10:00:00" =
      some [["timestamp", "user_id", "name", "cpf"],
            ["01/01/2025 10:00:00", "7", "Ana", ""]] ∧
    accessHeader ≠ ["timestamp", "subject_id", "name", "cpf"] := by
  constructor
  · rfl
  · decide

/-- Claim C9 as amended (header column `user_id` instead of the claim's
`subject_id`): the access logger appends exactly one row per confirmed
access, first writing the header `timestamp; user_id; name; cpf` exactly
when the file did not exist; prior rows are preserved unchanged, and a
write failure leaves the file as it was instead of propagating. -/
theorem claim_C9_access_log (fail : Bool) (file : Option (List (List String)))
    (u : MatchRec) (ts : String) :
    (fail = true → logAccessEvent fail file u ts = file) ∧
    (fail = false → file = none →
      logAccessEvent fail file u ts = some [accessHeader, accessRow u ts]) ∧
    (fail = false → ∀ rows, file = some rows →
      logAccessEvent fail file u ts = some (rows ++ [accessRow u ts])) := by
  refine ⟨fun hf => ?_, fun hf hn => ?_, fun hf rows hr => ?_⟩
  · simp [logAccessEvent, hf]
  · simp [logAccessEvent, hf, hn]
  · simp [logAccessEvent, hf, hr]

/-- Witness for C9 at a concrete file state: appending to an existing
one-row file reproduces the row and adds exactly one new row. -/
theorem claim_C9_witness :
    logAccessEvent false (some [accessHeader])
        { id := some 3, name := some "Bia", cpf := some "123" } "ts" =
      some [accessHeader,
            accessRow { id := some 3, name := some "Bia", cpf := some "123" } "ts"] :=
  (claim_C9_access_log false (some [accessHeader])
      { id := some 3, name := some "Bia", cpf := some "123" } "ts").2.2
    rfl [accessHeader] rfl

/-! ## Claim C8 — enrollment rollback -/

/-- Deleting a freshly registered user (one whose id is the next fresh id)
from the extended registry removes exactly that record and the id's image
directory, returning `true`. -/
lemma deleteUser_fresh (st : Registry) (w : UserRec)
    (hw : w.id.getD (-1) = getNextUserId st.users) (dirs : List ℤ) :
    deleteUser { users := st.users ++ [w], imageDirs := dirs }
        (getNextUserId st.users) true =
      (true,
       { users := st.users,
         imageDirs := dirs.filter (fun d => d ≠ getNextUserId st.users) },
       true) := by
  have hne : ∀ u ∈ st.users, u.id.getD (-1) ≠ getNextUserId st.users := by
    intro u hu
    exact ne_of_lt (idD_lt_next st.users u hu)
  have hfe : (st.users ++ [w]).filter
      (fun u => decide (u.id.getD (-1) ≠ getNextUserId st.users)) = st.users := by
    rw [List.filter_append]
    have h1 : st.users.filter
        (fun u => decide (u.id.getD (-1) ≠ getNextUserId st.users)) = st.users :=
      List.filter_eq_self.mpr (by intro a ha; simpa using hne a ha)
    have h2 : [w].filter
        (fun u => decide (u.id.getD (-1) ≠ getNextUserId st.users)) = [] := by
      simp [hw]
    rw [h1, h2, List.append_nil]
  unfold deleteUser
  rw [if_neg (by rw [hfe]; simp)]
  rw [hfe]
  simp

/-- Claim C8: a capture session whose device does not open returns `none`
without creating any record or directory; a session that opens the device
but captures zero images rolls back — the function returns `none`, the
registry afterwards is exactly the prior one (in particular no record with
the fresh id remains) and the fresh id's image directory is gone. -/
theorem claim_C8_enrollment_rollback (deviceOpens : Bool)
    (frames : List CapFrame) (num : ℕ) (st : Registry) (nm cpf : String) :
    (deviceOpens = false →
      captureUserFaces deviceOpens frames num st nm cpf = (none, st)) ∧
    (deviceOpens = true → (captureRun num capInit frames).captured = 0 →
      captureUserFaces deviceOpens frames num st nm cpf =
        (none,
         { users := st.users,
           imageDirs := (if getNextUserId st.users ∈ st.imageDirs
                         then st.imageDirs
                         else getNextUserId st.users :: st.imageDirs).filter
                          (fun d => d ≠ getNextUserId st.users) }) ∧
      (∀ u ∈ st.users, u.id.getD (-1) ≠ getNextUserId st.users) ∧
      getNextUserId st.users ∉
        ((captureUserFaces deviceOpens frames num st nm cpf).2).imageDirs) := by
  constructor
  · intro h
    simp [captureUserFaces, h]
  · intro hdev hcap
    have hne : ∀ u ∈ st.users, u.id.getD (-1) ≠ getNextUserId st.users := by
      intro u hu
      exact ne_of_lt (idD_lt_next st.users u hu)
    have hmain : captureUserFaces deviceOpens frames num st nm cpf =
        (none,
         { users := st.users,
           imageDirs := (if getNextUserId st.users ∈ st.imageDirs
                         then st.imageDirs
                         else getNextUserId st.users :: st.imageDirs).filter
                          (fun d => d ≠ getNextUserId st.users) }) := by
      unfold captureUserFaces
      rw [if_neg (by simp [hdev])]
      simp only [registerUser]
      rw [if_pos hcap]
      rw [deleteUser_fresh st
        { id := some (getNextUserId st.users), name := some nm,
          cpf := if cpf = "" then none else some cpf } (by simp)
        (if getNextUserId st.users ∈ st.imageDirs then st.imageDirs
         else getNextUserId st.users :: st.imageDirs)]
    refine ⟨hmain, hne, ?_⟩
    rw [hmain]
    simp

/-- Witness for C8 at a concrete session: the device opens but the first
frame read fails, so zero images are captured and the fresh id's image
directory does not survive the rollback. -/
theorem claim_C8_witness :
    getNextUserId ([] : List UserRec) ∉
      ((captureUserFaces true [{ readOk := false, crop := none, quitKey := false }]
          5 { users := [], imageDirs := [] } "Zoe" "").2).imageDirs :=
  ((claim_C8_enrollment_rollback true
      [{ readOk := false, crop := none, quitKey := false }] 5
      { users := [], imageDirs := [] } "Zoe" "").2 rfl (by decide)).2.2

/-! ## Claim C6 — the liveness filter -/

/-- The mean absolute difference of a crop with itself vanishes. -/
lemma meanAbsDiff_self (c : List ℤ) : meanAbsDiff c c = 0 := by
  unfold meanAbsDiff
  have h : ∀ l : List ℤ,
      ((l.zip l).map (fun q => (((q.1 - q.2).natAbs : ℚ)))).sum = 0 := by
    intro l
    induction l with
    | nil => simp
    | cons x xs ih => simp [List.zip_cons_cons, ih]
  rw [h]
  simp

/-- Running the liveness filter over `n` repetitions of the same crop,
starting from that crop as previous and counter `k`, yields the counters
`k+1, …, k+n`. -/
lemma livenessTrace_replicate (c : List ℤ) :
    ∀ n k, livenessTrace (some c) k (List.replicate n c) =
      (List.range n).map (fun i => k + 1 + i) := by
  intro n
  induction n with
  | zero => intro k; simp [livenessTrace]
  | succ m ih =>
    intro k
    rw [List.replicate_succ]
    show (livenessStep (some c) k c).1 ::
        livenessTrace (livenessStep (some c) k c).2 (livenessStep (some c) k c).1
          (List.replicate m c) = _
    have hstep : livenessStep (some c) k c = (k + 1, some c) := by
      unfold livenessStep
      simp [meanAbsDiff_self, LIVENESS_DIFF_THRESHOLD]
    rw [hstep]
    simp only [ih (k + 1)]
    rw [List.range_succ_eq_map, List.map_cons, List.map_map]
    congr 1
    apply List.map_congr_left
    intro a _
    simp [Function.comp_def]
    omega

/-- Same as `livenessTrace_replicate` with a trailing remainder of
frames. -/
lemma livenessTrace_replicate_append (c : List ℤ) (rest : List (List ℤ)) :
    ∀ n k, livenessTrace (some c) k (List.replicate n c ++ rest) =
      (List.range n).map (fun i => k + 1 + i) ++
        livenessTrace (some c) (k + n) rest := by
  intro n
  induction n with
  | zero => intro k; simp [livenessTrace]
  | succ m ih =>
    intro k
    rw [List.replicate_succ]
    show (livenessStep (some c) k c).1 ::
        livenessTrace (livenessStep (some c) k c).2 (livenessStep (some c) k c).1
          (List.replicate m c ++ rest) = _
    have hstep : livenessStep (some c) k c = (k + 1, some c) := by
      unfold livenessStep
      simp [meanAbsDiff_self, LIVENESS_DIFF_THRESHOLD]
    rw [hstep]
    simp only [ih (k + 1)]
    rw [List.range_succ_eq_map, List.map_cons, List.map_map, List.cons_append]
    congr 1
    congr 1
    · apply List.map_congr_left
      intro a _
      simp [Function.comp_def]
      omega
    · have harg : k + 1 + m = k + (m + 1) := by omega
      rw [harg]

/-- Claim C6: the per-frame liveness filter increments the static counter
exactly when a previous crop of matching shape exists and the mean
absolute difference is below 1.0, resetting it to 0 otherwise; the crop
unconditionally becomes the new previous crop; a frame with a valid face
box is classified static exactly when the updated counter reaches 10;
12 identical crops are static from frame 10 (0-based) onward; and one
sufficiently different crop at frame 11 resets the counter to 0. -/
theorem claim_C6_liveness :
    (∀ (prev : Option (List ℤ)) (cnt : ℕ) (c : List ℤ),
      (livenessStep prev cnt c).2 = some c ∧
      (livenessStep none cnt c).1 = 0 ∧
      (∀ p, prev = some p → p.length ≠ c.length →
        (livenessStep prev cnt c).1 = 0) ∧
      (∀ p, prev = some p → p.length = c.length →
        ((meanAbsDiff c p < LIVENESS_DIFF_THRESHOLD →
            (livenessStep prev cnt c).1 = cnt + 1) ∧
         (¬ meanAbsDiff c p < LIVENESS_DIFF_THRESHOLD →
            (livenessStep prev cnt c).1 = 0)))) ∧
    (∀ (cfg : SessConfig) (s : SessState) (inp : FrameInput) (rep : RepInfo),
      inp.rep = some rep →
      ∀ b, rep.area.bind (clampBox inp.frameW inp.frameH) = some b →
      ((processFrame cfg s inp).live = some false ↔
        LIVENESS_STATIC_FRAMES ≤
          (livenessStep s.prevCrop s.staticFrames rep.crop).1)) ∧
    (∀ c : List ℤ,
      (livenessTrace none 0 (List.replicate 12 c)).map
          (fun k => decide (LIVENESS_STATIC_FRAMES ≤ k)) =
        List.replicate 10 false ++ [true, true]) ∧
    (∀ c d : List ℤ, c.length = d.length →
      ¬ meanAbsDiff d c < LIVENESS_DIFF_THRESHOLD →
      (livenessTrace none 0 (List.replicate 11 c ++ [d])).getLast? = some 0) := by
  refine ⟨?_, ?_, ?_, ?_⟩
  · intro prev cnt c
    refine ⟨?_, ?_, ?_, ?_⟩
    · cases prev <;> simp [livenessStep]
    · simp [livenessStep]
    · intro p hp hlen
      subst hp
      simp [livenessStep, hlen]
    · intro p hp hlen
      subst hp
      constructor
      · intro hd
        simp [livenessStep, hlen, hd]
      · intro hd
        simp [livenessStep, hlen, hd]
  · intro cfg s inp rep hrep b hb
    simp only [processFrame, hrep, hb]
    simp [Nat.not_lt, LIVENESS_STATIC_FRAMES]
  · intro c
    have h0 : livenessTrace none 0 (List.replicate 12 c) =
        0 :: livenessTrace (some c) 0 (List.replicate 11 c) := by
      rw [show List.replicate 12 c = c :: List.replicate 11 c from rfl]
      show (livenessStep none 0 c).1 ::
          livenessTrace (livenessStep none 0 c).2 (livenessStep none 0 c).1
            (List.replicate 11 c) = _
      simp [livenessStep]
    rw [h0, livenessTrace_replicate c 11 0]
    decide
  · intro c d hlen hdiff
    have h0 : livenessTrace none 0 (List.replicate 11 c ++ [d]) =
        0 :: livenessTrace (some c) 0 (List.replicate 10 c ++ [d]) := by
      rw [show List.replicate 11 c ++ [d] = c :: (List.replicate 10 c ++ [d])
          from rfl]
      show (livenessStep none 0 c).1 ::
          livenessTrace (livenessStep none 0 c).2 (livenessStep none 0 c).1
            (List.replicate 10 c ++ [d]) = _
      simp [livenessStep]
    rw [h0, livenessTrace_replicate_append c [d] 10 0]
    have hstep : livenessStep (some c) (0 + 10) d = (0, some d) := by
      unfold livenessStep
      simp [hlen, hdiff]
    have h1 : livenessTrace (some c) (0 + 10) [d] = [0] := by
      show (livenessStep (some c) (0 + 10) d).1 ::
          livenessTrace (livenessStep (some c) (0 + 10) d).2
            (livenessStep (some c) (0 + 10) d).1 [] = _
      rw [hstep]
      rfl
    rw [h1]
    rw [show (0 : ℕ) :: ((List.range 10).map (fun i => 0 + 1 + i) ++ [0]) =
        ((0 : ℕ) :: (List.range 10).map (fun i => 0 + 1 + i)) ++ [0]
        from rfl]
    rw [List.getLast?_concat]

/-- Witness for C6 at a concrete pair of crops: a crop of four zero
pixels against a previous crop of four pixels at 100 has mean difference
100, so the reset conjunct applies. -/
theorem claim_C6_witness :
    (livenessTrace none 0
        (List.replicate 11 [(100 : ℤ), 100, 100, 100] ++ [[0, 0, 0, 0]])).getLast? =
      some 0 :=
  claim_C6_liveness.2.2.2 [(100 : ℤ), 100, 100, 100] [0, 0, 0, 0]
    (by decide)
    (by norm_num [meanAbsDiff, List.zip_cons_cons, LIVENESS_DIFF_THRESHOLD])

/-! ## Claim C2 — the stability gate -/

/-- A frame whose id differs from the pending one restarts the window. -/
lemma gateStep_reset (gs : GateState) (cid : ℤ) (now : ℚ)
    (h : gs.pendingId ≠ some cid) :
    gateStep gs cid now =
      ({ pendingId := some cid, pendingStart := some now,
         lastRecognized := gs.lastRecognized }, false) := by
  unfold gateStep
  rw [if_pos h]

/-- A frame of an already confirmed pending id emits nothing and leaves
the state alone. -/
lemma gateStep_same_confirmed (gs : GateState) (cid : ℤ) (now : ℚ)
    (h1 : gs.pendingId = some cid) (h2 : gs.lastRecognized = some cid) :
    gateStep gs cid now = (gs, false) := by
  unfold gateStep
  rw [if_neg (by simp [h1])]
  split
  next t heq => rw [if_neg (by simp [h2])]
  next heq => rfl

/-- Before the window has elapsed the gate holds its state silently. -/
lemma gateStep_pending_early (gs : GateState) (cid : ℤ) (now t0 : ℚ)
    (h1 : gs.pendingId = some cid) (hs : gs.pendingStart = some t0)
    (hc : ¬ now - t0 ≥ STABILITY_WINDOW) :
    gateStep gs cid now = (gs, false) := by
  unfold gateStep
  rw [if_neg (by simp [h1])]
  split
  next t heq =>
    rw [hs] at heq
    obtain rfl : t = t0 := by simpa using heq.symm
    rw [if_neg (by simp [hc])]
  next heq => rfl

/-- Once the window has elapsed for a pending id that differs from the
last confirmed one, the gate confirms. -/
lemma gateStep_pending_fire (gs : GateState) (cid : ℤ) (now t0 : ℚ)
    (h1 : gs.pendingId = some cid) (hs : gs.pendingStart = some t0)
    (hge : now - t0 ≥ STABILITY_WINDOW) (hl : gs.lastRecognized ≠ some cid) :
    gateStep gs cid now = ({ gs with lastRecognized := some cid }, true) := by
  unfold gateStep
  rw [if_neg (by simp [h1])]
  split
  next t heq =>
    rw [hs] at heq
    obtain rfl : t = t0 := by simpa using heq.symm
    rw [if_pos ⟨hge, Ne.symm hl⟩]
  next heq =>
    rw [hs] at heq
    simp at heq

/-- With the same pending id but no recorded start time (unreachable in
a real session, where both are set together) the gate stays silent. -/
lemma gateStep_no_start (gs : GateState) (cid : ℤ) (now : ℚ)
    (h1 : gs.pendingId = some cid) (hs : gs.pendingStart = none) :
    gateStep gs cid now = (gs, false) := by
  unfold gateStep
  rw [if_neg (by simp [h1])]
  split
  next t heq =>
    rw [hs] at heq
    simp at heq
  next heq => rfl

/-- A non-firing step never changes the last confirmed id. -/
lemma gateStep_silent_last (gs : GateState) (cid : ℤ) (now : ℚ)
    (h : (gateStep gs cid now).2 = false) :
    (gateStep gs cid now).1.lastRecognized = gs.lastRecognized := by
  by_cases h1 : gs.pendingId ≠ some cid
  · rw [gateStep_reset gs cid now h1]
  · push_neg at h1
    by_cases hll : gs.lastRecognized = some cid
    · rw [gateStep_same_confirmed gs cid now h1 hll]
    · cases hs : gs.pendingStart with
      | none => rw [gateStep_no_start gs cid now h1 hs]
      | some t0 =>
        by_cases hge : now - t0 ≥ STABILITY_WINDOW
        · rw [gateStep_pending_fire gs cid now t0 h1 hs hge hll] at h
          simp at h
        · rw [gateStep_pending_early gs cid now t0 h1 hs hge]

/-- A firing step characterization: firing forces the pending id, an
elapsed window, and a different last confirmed id, and it records the id
as last confirmed. -/
lemma gateStep_fire_char (gs : GateState) (cid : ℤ) (now : ℚ)
    (h : (gateStep gs cid now).2 = true) :
    gs.pendingId = some cid ∧
    (∃ t0, gs.pendingStart = some t0 ∧ now - t0 ≥ STABILITY_WINDOW) ∧
    gs.lastRecognized ≠ some cid ∧
    (gateStep gs cid now).1 = { gs with lastRecognized := some cid } := by
  by_cases h1 : gs.pendingId ≠ some cid
  · rw [gateStep_reset gs cid now h1] at h
    simp at h
  · push_neg at h1
    by_cases hll : gs.lastRecognized = some cid
    · rw [gateStep_same_confirmed gs cid now h1 hll] at h
      simp at h
    · cases hs : gs.pendingStart with
      | none =>
        rw [gateStep_no_start gs cid now h1 hs] at h
        simp at h
      | some t0 =>
        by_cases hge : now - t0 ≥ STABILITY_WINDOW
        · refine ⟨h1, ⟨t0, rfl, hge⟩, hll, ?_⟩
          rw [gateStep_pending_fire gs cid now t0 h1 hs hge hll]
          simp [hs]
        · rw [gateStep_pending_early gs cid now t0 h1 hs hge] at h
          simp at h

/-- After confirmation, further frames of the same id stay silent and the
state is unchanged. -/
lemma gateRun_confirmed_silent (A : ℤ) :
    ∀ (fs : List (ℤ × ℚ)) (gs : GateState),
      gs.pendingId = some A → gs.lastRecognized = some A →
      (∀ p ∈ fs, p.1 = A) → gateRun gs fs = (gs, []) := by
  intro fs
  induction fs with
  | nil => intro gs _ _ _; rfl
  | cons f rest ih =>
    intro gs h1 h2 hall
    have hf : f.1 = A := hall f (List.mem_cons_self f rest)
    show (let r := gateStep gs f.1 f.2
          let rr := gateRun r.1 rest
          (rr.1, (if r.2 then [f.1] else []) ++ rr.2)) = (gs, [])
    rw [hf, gateStep_same_confirmed gs A f.2 h1 h2]
    simp only []
    rw [ih gs h1 h2 (fun p hp => hall p (List.mem_cons_of_mem f hp))]
    simp

/-- With a pending id `A` started at `t0` and a stream of further `A`
frames, exactly one confirmation fires when some frame reaches the
window, and none fires when no frame does. -/
lemma gateRun_pending_char (A : ℤ) (t0 : ℚ) :
    ∀ (fs : List (ℤ × ℚ)) (gs : GateState),
      gs.pendingId = some A → gs.pendingStart = some t0 →
      gs.lastRecognized ≠ some A → (∀ p ∈ fs, p.1 = A) →
      ((∃ p ∈ fs, p.2 - t0 ≥ STABILITY_WINDOW) → (gateRun gs fs).2 = [A]) ∧
      ((∀ p ∈ fs, p.2 - t0 < STABILITY_WINDOW) → (gateRun gs fs).2 = []) := by
  intro fs
  induction fs with
  | nil =>
    intro gs _ _ _ _
    exact ⟨fun h => by simp at h, fun _ => rfl⟩
  | cons f rest ih =>
    intro gs h1 hs hl hall
    have hf : f.1 = A := hall f (List.mem_cons_self f rest)
    have hrest : ∀ p ∈ rest, p.1 = A :=
      fun p hp => hall p (List.mem_cons_of_mem f hp)
    by_cases hc : f.2 - t0 ≥ STABILITY_WINDOW
    · have hstep : gateStep gs f.1 f.2 =
          ({ gs with lastRecognized := some A }, true) := by
        rw [hf]
        exact gateStep_pending_fire gs A f.2 t0 h1 hs hc hl
      have hrun : gateRun { gs with lastRecognized := some A } rest =
          ({ gs with lastRecognized := some A }, []) :=
        gateRun_confirmed_silent A rest _ h1 rfl hrest
      constructor
      · intro _
        show ((gateRun (gateStep gs f.1 f.2).1 rest).1,
              (if (gateStep gs f.1 f.2).2 then [f.1] else []) ++
                (gateRun (gateStep gs f.1 f.2).1 rest).2).2 = [A]
        rw [hstep]
        simp [hrun, hf]
      · intro hnone
        exact absurd hc (by simpa using hnone f (List.mem_cons_self f rest))
    · have hstep : gateStep gs f.1 f.2 = (gs, false) := by
        rw [hf]
        exact gateStep_pending_early gs A f.2 t0 h1 hs hc
      have hmain := ih gs h1 hs hl hrest
      constructor
      · intro hex
        obtain ⟨p, hp, hge⟩ := hex
        have hprest : p ∈ rest := by
          rcases List.mem_cons.mp hp with h | h
          · exact absurd (h ▸ hge) hc
          · exact h
        show ((gateRun (gateStep gs f.1 f.2).1 rest).1,
              (if (gateStep gs f.1 f.2).2 then [f.1] else []) ++
                (gateRun (gateStep gs f.1 f.2).1 rest).2).2 = [A]
        rw [hstep]
        simpa using hmain.1 ⟨p, hprest, hge⟩
      · intro hnone
        show ((gateRun (gateStep gs f.1 f.2).1 rest).1,
              (if (gateStep gs f.1 f.2).2 then [f.1] else []) ++
                (gateRun (gateStep gs f.1 f.2).1 rest).2).2 = []
        rw [hstep]
        simpa using hmain.2
          (fun p hp => hnone p (List.mem_cons_of_mem f hp))

/-- A stream whose adjacent ids always differ keeps resetting the window
and never emits, provided the first id also differs from the pending
one. -/
lemma gateRun_alternating :
    ∀ (fs : List (ℤ × ℚ)) (f : ℤ × ℚ) (gs : GateState),
      gs.pendingId ≠ some f.1 →
      List.Chain' (fun p q : ℤ × ℚ => p.1 ≠ q.1) (f :: fs) →
      (gateRun gs (f :: fs)).2 = [] := by
  intro fs
  induction fs with
  | nil =>
    intro f gs hne _
    show ((gateRun (gateStep gs f.1 f.2).1 [] ).1,
          (if (gateStep gs f.1 f.2).2 then [f.1] else []) ++
            (gateRun (gateStep gs f.1 f.2).1 []).2).2 = []
    rw [gateStep_reset gs f.1 f.2 hne]
    rfl
  | cons g rest ih =>
    intro f gs hne hchain
    have hfg : f.1 ≠ g.1 := (List.chain'_cons.mp hchain).1
    have hchain2 : List.Chain' (fun p q : ℤ × ℚ => p.1 ≠ q.1) (g :: rest) :=
      (List.chain'_cons.mp hchain).2
    show ((gateRun (gateStep gs f.1 f.2).1 (g :: rest)).1,
          (if (gateStep gs f.1 f.2).2 then [f.1] else []) ++
            (gateRun (gateStep gs f.1 f.2).1 (g :: rest)).2).2 = []
    rw [gateStep_reset gs f.1 f.2 hne]
    simpa using ih g _ (by simpa using hfg) hchain2

/-- The ids of the emitted events never repeat back-to-back, and the
first emission differs from the last confirmed id at the start. -/
lemma gateRun_emissions_chain :
    ∀ (fs : List (ℤ × ℚ)) (gs : GateState),
      List.Chain' (· ≠ ·) ((gateRun gs fs).2) ∧
      (∀ e, ((gateRun gs fs).2).head? = some e →
        gs.lastRecognized ≠ some e) := by
  intro fs
  induction fs with
  | nil =>
    intro gs
    exact ⟨List.chain'_nil, by intro e he; simp [gateRun] at he⟩
  | cons f rest ih =>
    intro gs
    have hshow : (gateRun gs (f :: rest)).2 =
        (if (gateStep gs f.1 f.2).2 then [f.1] else []) ++
          (gateRun (gateStep gs f.1 f.2).1 rest).2 := rfl
    cases hfired : (gateStep gs f.1 f.2).2 with
    | false =>
      have hred : (gateRun gs (f :: rest)).2 =
          (gateRun (gateStep gs f.1 f.2).1 rest).2 := by
        rw [hshow, hfired]
        simp
      rw [hred]
      have hlast := gateStep_silent_last gs f.1 f.2 hfired
      refine ⟨(ih (gateStep gs f.1 f.2).1).1, ?_⟩
      intro e he
      have := (ih (gateStep gs f.1 f.2).1).2 e he
      rwa [hlast] at this
    | true =>
      obtain ⟨_, _, hldiff, hstate⟩ := gateStep_fire_char gs f.1 f.2 hfired
      have hred : (gateRun gs (f :: rest)).2 =
          f.1 :: (gateRun (gateStep gs f.1 f.2).1 rest).2 := by
        rw [hshow, hfired]
        simp
      rw [hred]
      constructor
      · rw [List.chain'_cons']
        refine ⟨?_, (ih (gateStep gs f.1 f.2).1).1⟩
        intro y hy
        have hne := (ih (gateStep gs f.1 f.2).1).2 y hy
        rw [hstate] at hne
        simpa using fun hcontra => hne (by simp [hcontra])
      · intro e he
        have he2 : e = f.1 := by simpa using he.symm
        rw [he2]
        exact hldiff

/-- Claim C2: over any synthetic stream of per-frame accepted match ids,
(1) a fresh id accepted continuously emits exactly one access event for
it as soon as some frame lies the stability window past the streak start,
and none when no frame does; (2) a stream of adjacent-distinct ids
(rapid alternation) emits nothing; (3) an emission forces a pending
streak that has lasted the window and an id differing from the last
confirmed one; and (4) emitted ids never repeat without a different id
being confirmed in between. -/
theorem claim_C2_stability_gate :
    (∀ (gs : GateState) (A : ℤ) (t0 : ℚ) (rest : List (ℤ × ℚ)),
      gs.pendingId ≠ some A → gs.lastRecognized ≠ some A →
      (∀ p ∈ rest, p.1 = A) →
      ((∃ p ∈ rest, p.2 - t0 ≥ STABILITY_WINDOW) →
        (gateRun gs ((A, t0) :: rest)).2 = [A]) ∧
      ((∀ p ∈ rest, p.2 - t0 < STABILITY_WINDOW) →
        (gateRun gs ((A, t0) :: rest)).2 = [])) ∧
    (∀ (f : ℤ × ℚ) (fs : List (ℤ × ℚ)) (gs : GateState),
      gs.pendingId ≠ some f.1 →
      List.Chain' (fun p q : ℤ × ℚ => p.1 ≠ q.1) (f :: fs) →
      (gateRun gs (f :: fs)).2 = []) ∧
    (∀ (gs : GateState) (cid : ℤ) (now : ℚ),
      (gateStep gs cid now).2 = true →
      gs.pendingId = some cid ∧
      (∃ t0, gs.pendingStart = some t0 ∧ now - t0 ≥ STABILITY_WINDOW) ∧
      gs.lastRecognized ≠ some cid) ∧
    (∀ (fs : List (ℤ × ℚ)) (gs : GateState),
      List.Chain' (· ≠ ·) ((gateRun gs fs).2) ∧
      (∀ e, ((gateRun gs fs).2).head? = some e →
        gs.lastRecognized ≠ some e)) := by
  refine ⟨?_, ?_, ?_, ?_⟩
  · intro gs A t0 rest hpend hlast hall
    have hstep : gateStep gs A t0 =
        ({ pendingId := some A, pendingStart := some t0,
           lastRecognized := gs.lastRecognized }, false) :=
      gateStep_reset gs A t0 hpend
    have hrec := gateRun_pending_char A t0 rest
      { pendingId := some A, pendingStart := some t0,
        lastRecognized := gs.lastRecognized } rfl rfl (by simpa) hall
    constructor
    · intro hex
      show ((gateRun (gateStep gs A t0).1 rest).1,
            (if (gateStep gs A t0).2 then [A] else []) ++
              (gateRun (gateStep gs A t0).1 rest).2).2 = [A]
      rw [hstep]
      simpa using hrec.1 hex
    · intro hnone
      show ((gateRun (gateStep gs A t0).1 rest).1,
            (if (gateStep gs A t0).2 then [A] else []) ++
              (gateRun (gateStep gs A t0).1 rest).2).2 = []
      rw [hstep]
      simpa using hrec.2 hnone
  · intro f fs gs hne hchain
    exact gateRun_alternating fs f gs hne hchain
  · intro gs cid now h
    obtain ⟨h1, h2, h3, _⟩ := gateStep_fire_char gs cid now h
    exact ⟨h1, h2, h3⟩
  · exact gateRun_emissions_chain

/-- Witness for C2 at concrete streams from the session-initial state:
three frames of id 1 at times 0, 1 and 4 emit exactly one event for 1,
while a rapid alternation of ids 1 and 2 emits nothing. -/
theorem claim_C2_witness :
    (gateRun { pendingId := none, pendingStart := none, lastRecognized := none }
        [(1, 0), (1, 1), (1, 4)]).2 = [1] ∧
    (gateRun { pendingId := none, pendingStart := none, lastRecognized := none }
        [(1, 0), (2, 1), (1, 2), (2, 3)]).2 = [] := by
  constructor
  · exact (claim_C2_stability_gate.1
      { pendingId := none, pendingStart := none, lastRecognized := none }
      1 0 [(1, 1), (1, 4)] (by simp) (by simp) (by decide)).1
      ⟨(1, 4), by decide, by norm_num [STABILITY_WINDOW]⟩
  · exact claim_C2_stability_gate.2.1 (1, 0) [(2, 1), (1, 2), (2, 3)]
      { pendingId := none, pendingStart := none, lastRecognized := none }
      (by simp) (by norm_num [List.chain'_cons, List.chain'_singleton])

/-! ## Claim C5 — resetting the pending state -/

/-- A surviving re-check forces an underlying match. -/
lemma recheckMatch_ne_none (active : List ℤ) (m : Option MatchRec)
    (h : recheckMatch active m ≠ none) :
    ∃ mr, m = some mr ∧ ∃ mid, mr.id = some mid ∧ mid ∈ active ∧
      recheckMatch active m = some mr := by
  match m with
  | none => exact absurd rfl h
  | some mr =>
    match hid : mr.id with
    | none =>
      exact absurd (by simp [recheckMatch, hid]) h
    | some mid =>
      by_cases hmem : mid ∈ active
      · exact ⟨mr, rfl, mid, hid, hmem, by simp [recheckMatch, hid, hmem]⟩
      · exact absurd (by simp [recheckMatch, hid, hmem]) h

/-- Claim C5 as amended.  The code clears the pending candidate exactly
on frames where a face was represented but no match survived the
active-id re-check (which covers the unextractable-id reset inside the
gate).  Contrary to the claim as stated, a frame with no detected face
leaves the pending state untouched, and so does a static-classified (or
box-less) frame whose match survives the re-check. -/
theorem claim_C5_pending_reset (cfg : SessConfig) (s : SessState)
    (inp : FrameInput) :
    (inp.rep = none →
      processFrame cfg s inp =
        { state := s, events := [], shown := none, live := none }) ∧
    (∀ rep, inp.rep = some rep →
      recheckMatch cfg.active
        (computeMatch cfg.model cfg.meta cfg.active cfg.filtered
          rep.emb cfg.threshold).1 = none →
      (processFrame cfg s inp).state.gate.pendingId = none ∧
      (processFrame cfg s inp).state.gate.pendingStart = none) ∧
    (∀ rep, inp.rep = some rep →
      recheckMatch cfg.active
        (computeMatch cfg.model cfg.meta cfg.active cfg.filtered
          rep.emb cfg.threshold).1 ≠ none →
      (rep.area.bind (clampBox inp.frameW inp.frameH) = none ∨
        LIVENESS_STATIC_FRAMES ≤
          (livenessStep s.prevCrop s.staticFrames rep.crop).1) →
      (processFrame cfg s inp).state.gate.pendingId = s.gate.pendingId ∧
      (processFrame cfg s inp).state.gate.pendingStart = s.gate.pendingStart) := by
  refine ⟨?_, ?_, ?_⟩
  · intro h
    simp [processFrame, h]
  · intro rep hrep hnone
    simp [processFrame, hrep, hnone]
  · intro rep hrep hsome hcase
    obtain ⟨mr0, hm0, mid, hmid, hmem, hrc⟩ :=
      recheckMatch_ne_none cfg.active _ hsome
    rw [hm0] at hrc
    cases hb : rep.area.bind (clampBox inp.frameW inp.frameH) with
    | none =>
      simp only [processFrame, hrep, hb, hm0, hrc]
      constructor <;> trivial
    | some b =>
      rcases hcase with hcase | hstatic
      · rw [hcase] at hb
        simp at hb
      · have hdec : decide ((livenessStep s.prevCrop s.staticFrames rep.crop).1 <
            LIVENESS_STATIC_FRAMES) = false :=
          decide_eq_false (Nat.not_lt.mpr hstatic)
        simp only [processFrame, hrep, hb, hm0, hrc, hdec]
        constructor <;> trivial

noncomputable section

/-- An empty session configuration: no classifier, no active subjects,
no reference records. -/
def cfgEmpty : SessConfig :=
  { model := none, meta := fun _ => none, active := [], filtered := [],
    threshold := DEFAULT_THRESHOLD }

/-- A session state with subject 1 pending since time 0. -/
def sPending : SessState :=
  { prevCrop := none, staticFrames := 0,
    gate := { pendingId := some 1, pendingStart := some 0,
              lastRecognized := none } }

/-- A frame on which no face was detected. -/
def inpNoFace : FrameInput :=
  { rep := none, frameW := 640, frameH := 480, now := 100 }

/-- A frame with a represented face but no usable box, in a session with
no active subjects (so no frame can yield a match). -/
def inpFaceNoMatch : FrameInput :=
  { rep := some { emb := [], area := none, crop := [] },
    frameW := 640, frameH := 480, now := 100 }

end

/-- Counterexample to C5 as stated: a frame with no detected face — which
yields no accepted match — does not reset the pending state: subject 1
stays pending with its original start time. -/
theorem claim_C5_counterexample :
    processFrame cfgEmpty sPending inpNoFace =
      { state := sPending, events := [], shown := none, live := none } ∧
    sPending.gate.pendingId = some 1 ∧
    sPending.gate.pendingStart = some 0 :=
  ⟨rfl, rfl, rfl⟩

/-- Witness for C5 at a concrete frame: a represented face with no match
in an empty session clears the pending state. -/
theorem claim_C5_witness :
    (processFrame cfgEmpty sPending inpFaceNoMatch).state.gate.pendingId = none ∧
    (processFrame cfgEmpty sPending inpFaceNoMatch).state.gate.pendingStart = none :=
  (claim_C5_pending_reset cfgEmpty sPending inpFaceNoMatch).2.1
    { emb := [], area := none, crop := [] } rfl rfl

/-! ## Claim C7 — wholesale regeneration of the descriptor set -/

/-- A failed insertion poisons the rest of the transaction. -/
lemma sqlFold_none (l : List EmbRec) : l.foldl sqlInsertStep none = none := by
  induction l with
  | nil => rfl
  | cons e es ih =>
    show es.foldl sqlInsertStep (sqlInsertStep none e) = none
    have h : sqlInsertStep none e = none := by
      unfold sqlInsertStep
      rfl
    rw [h, ih]

/-- Every row of a committed insertion run either predates the run or
stems from one of the inserted records. -/
lemma sqlFold_rows (l : List EmbRec) :
    ∀ (st db' : SqlDb), l.foldl sqlInsertStep (some st) = some db' →
      ∀ row ∈ db'.embRows,
        row ∈ st.embRows ∨ ∃ e ∈ l, e.id = some row.1 := by
  induction l with
  | nil =>
    intro st db' h row hrow
    have : st = db' := by simpa using h
    exact Or.inl (this ▸ hrow)
  | cons e es ih =>
    intro st db' h row hrow
    cases he : e.id with
    | none =>
      have hstep : sqlInsertStep (some st) e = none := by
        unfold sqlInsertStep
        rw [he]
      rw [show (e :: es).foldl sqlInsertStep (some st) =
            es.foldl sqlInsertStep (sqlInsertStep (some st) e) from rfl,
          hstep, sqlFold_none] at h
      exact absurd h (by simp)
    | some sid =>
      have hstep : sqlInsertStep (some st) e =
          some { subjects := upsertSubject st.subjects (sid, e.name.getD "", e.cpf),
                 embRows := st.embRows ++ [(sid, e.vec)] } := by
        unfold sqlInsertStep
        rw [he]
      rw [show (e :: es).foldl sqlInsertStep (some st) =
            es.foldl sqlInsertStep (sqlInsertStep (some st) e) from rfl,
          hstep] at h
      rcases ih _ db' h row hrow with hold | ⟨e2, he2, hid2⟩
      · rcases List.mem_append.mp hold with hold | hnew
        · exact Or.inl hold
        · refine Or.inr ⟨e, List.mem_cons_self e es, ?_⟩
          have : row = (sid, e.vec) := by simpa using hnew
          rw [this, he]
      · exact Or.inr ⟨e2, List.mem_cons_of_mem e he2, hid2⟩

/-- Every record the builder derives carries the id of a current registry
user. -/
lemma buildEmbeddings_ids (users : List UserRec)
    (fs : ℤ → Option (List ExtractOutcome)) :
    ∀ r ∈ buildEmbeddings (collectImagePaths users fs),
      ∃ u ∈ users, ∃ uid : ℤ, u.id = some uid ∧ r.id = some uid := by
  intro r hr
  obtain ⟨it, hit, hf⟩ := List.mem_filterMap.mp hr
  obtain ⟨u, hu, hitu⟩ := List.mem_flatMap.mp hit
  cases hid : u.id with
  | none => rw [hid] at hitu; simp at hitu
  | some uid =>
    rw [hid] at hitu
    have hitu2 : it ∈ (match fs uid with
        | none => []
        | some imgs => imgs.map (fun im => (uid, u.name, u.cpf, im))) := hitu
    cases hfs : fs uid with
    | none => rw [hfs] at hitu2; simp at hitu2
    | some imgs =>
      rw [hfs] at hitu2
      obtain ⟨im, _, hpair⟩ := List.mem_map.mp hitu2
      have hit1 : it.1 = uid := by rw [← hpair]
      refine ⟨u, hu, uid, hid, ?_⟩
      match hout : it.2.2.2 with
      | .error _ => rw [hout] at hf; simp at hf
      | .ok none => rw [hout] at hf; simp at hf
      | .ok (some v) =>
        rw [hout] at hf
        simp only [Option.some.injEq] at hf
        rw [← hf, hit1]

/-- Counterexample to C7 as stated: with the registry emptied (the one
subject deleted), `generate_embeddings` collects no images, returns 0 and
leaves the previously persisted descriptor set — still holding a record
for subject 5 — untouched. -/
theorem claim_C7_counterexample :
    generateEmbeddings [] (fun _ => none) true
        (some [{ id := some 5, name := some "Carol", cpf := none, vec := [] }]) =
      (0, some [{ id := some 5, name := some "Carol", cpf := none, vec := [] }]) ∧
    ({ id := some 5, name := some "Carol", cpf := none, vec := [] } : EmbRec).id =
      some 5 :=
  ⟨rfl, rfl⟩

/-- Claim C7 as amended: provided a regeneration run actually produces at
least one descriptor (and its write succeeds — the code returns 0 and
leaves the prior set in place when the inventory is empty, when nothing
could be extracted, or when the write fails), the persisted set is
replaced wholesale by records derived from the current registry's image
inventory, so a deleted subject id has zero records afterwards; likewise
`replace_embeddings` on a non-empty input rebuilds the SQLite rows solely
from its input. -/
theorem claim_C7_regeneration :
    (∀ (users : List UserRec) (fs : ℤ → Option (List ExtractOutcome))
       (w : Bool) (prior : Option (List EmbRec)),
      0 < (generateEmbeddings users fs w prior).1 →
      (generateEmbeddings users fs w prior).2 =
        some (buildEmbeddings (collectImagePaths users fs)) ∧
      (∀ r ∈ buildEmbeddings (collectImagePaths users fs),
        ∃ u ∈ users, ∃ uid : ℤ, u.id = some uid ∧ r.id = some uid) ∧
      (∀ d : ℤ, (∀ u ∈ users, u.id ≠ some d) →
        ∀ r ∈ buildEmbeddings (collectImagePaths users fs), r.id ≠ some d)) ∧
    (∀ (db : SqlDb) (embs : List EmbRec) (db' : SqlDb),
      replaceEmbeddings db embs = some db' → embs ≠ [] →
      (∀ row ∈ db'.embRows, ∃ e ∈ embs, e.id = some row.1) ∧
      (∀ d : ℤ, (∀ e ∈ embs, e.id ≠ some d) →
        ∀ row ∈ db'.embRows, row.1 ≠ d)) := by
  constructor
  · intro users fs w prior hcount
    have hids := buildEmbeddings_ids users fs
    have hpost : (generateEmbeddings users fs w prior).2 =
        some (buildEmbeddings (collectImagePaths users fs)) := by
      by_cases h1 : (collectImagePaths users fs).isEmpty
      · simp [generateEmbeddings, h1] at hcount
      · by_cases h2 : (buildEmbeddings (collectImagePaths users fs)).isEmpty
        · simp [generateEmbeddings, h1, h2] at hcount
        · cases w with
          | false => simp [generateEmbeddings, h1, h2] at hcount
          | true => simp [generateEmbeddings, h1, h2]
    refine ⟨hpost, hids, ?_⟩
    intro d hd r hr hrid
    obtain ⟨u, hu, uid, huid, hruid⟩ := hids r hr
    rw [hrid] at hruid
    exact hd u hu (huid.trans (by simpa using hruid.symm))
  · intro db embs db' hrep hne
    have hrows : ∀ row ∈ db'.embRows, ∃ e ∈ embs, e.id = some row.1 := by
      intro row hrow
      have hfold : embs.foldl sqlInsertStep
          (some { subjects := db.subjects, embRows := [] }) = some db' := by
        unfold replaceEmbeddings at hrep
        rwa [if_neg (by simpa using hne)] at hrep
      rcases sqlFold_rows embs _ db' hfold row hrow with hold | hnew
      · simp at hold
      · exact hnew
    refine ⟨hrows, ?_⟩
    intro d hd row hrow hrid
    obtain ⟨e, he, heid⟩ := hrows row hrow
    exact hd e he (by rw [heid, hrid])

/-- Witness for C7 at a concrete registry with one user owning one
extractable image: the regeneration count is positive and the derived
record does not carry the deleted id 5. -/
theorem claim_C7_witness :
    ({ id := some 1, name := some "Ana", cpf := none, vec := [] } : EmbRec).id ≠
      some 5 :=
  ((claim_C7_regeneration.1
      [{ id := some 1, name := some "Ana", cpf := none }]
      (fun uid => if uid = 1 then some [Except.ok (some [])] else none)
      true none (by decide)).2.2 5 (by decide)
    { id := some 1, name := some "Ana", cpf := none, vec := [] }
    (List.Mem.head _))

/-! ## Claim C3 — the distance matcher -/

/-- The scan of `argminAux` never leaves the index range. -/
lemma argminAux_lt (xs : List ℝ) :
    ∀ (best : ℝ) (bi i : ℕ), bi < i → argminAux best bi i xs < i + xs.length := by
  induction xs with
  | nil =>
    intro best bi i h
    simpa [argminAux] using h
  | cons x xs ih =>
    intro best bi i h
    show (if x < best then argminAux x i (i + 1) xs
          else argminAux best bi (i + 1) xs) < i + (x :: xs).length
    by_cases hx : x < best
    · rw [if_pos hx]
      have := ih x i (i + 1) (by omega)
      simp only [List.length_cons]
      omega
    · rw [if_neg hx]
      have := ih best bi (i + 1) (by omega)
      simp only [List.length_cons]
      omega

/-- The first-minimum index stays inside the list. -/
lemma argminIdx_lt (x : ℝ) (xs : List ℝ) :
    argminIdx (x :: xs) < (x :: xs).length := by
  have := argminAux_lt xs x 0 1 (by omega)
  simp only [argminIdx, List.length_cons]
  omega

/-- The scanned value at the index `argminAux` returns is the minimum of
the current best and the remaining entries. -/
lemma argminAux_getD (xs : List ℝ) :
    ∀ (pre : List ℝ) (best : ℝ) (bi : ℕ), bi < pre.length →
      pre.getD bi 0 = best →
      (pre ++ xs).getD (argminAux best bi pre.length xs) 0 =
        List.foldl min best xs := by
  induction xs with
  | nil =>
    intro pre best bi hbi hval
    simpa [argminAux] using hval
  | cons x xs ih =>
    intro pre best bi hbi hval
    show (pre ++ x :: xs).getD
        (if x < best then argminAux x pre.length (pre.length + 1) xs
         else argminAux best bi (pre.length + 1) xs) 0 = _
    have hsplit : pre ++ x :: xs = (pre ++ [x]) ++ xs := by simp
    have hlen : (pre ++ [x]).length = pre.length + 1 := by simp
    by_cases hx : x < best
    · rw [if_pos hx, hsplit]
      have hx0 : (pre ++ [x]).getD pre.length 0 = x := by
        rw [List.getD_append_right pre [x] 0 pre.length (le_refl _)]
        simp
      have := ih (pre ++ [x]) x pre.length (by simp) hx0
      rw [hlen] at this
      rw [this]
      have hmin : min best x = x := min_eq_right (le_of_lt hx)
      show List.foldl min x xs = List.foldl min (min best x) xs
      rw [hmin]
    · rw [if_neg hx, hsplit]
      have hb0 : (pre ++ [x]).getD bi 0 = best := by
        rw [List.getD_append pre [x] 0 bi hbi]
        exact hval
      have := ih (pre ++ [x]) best bi (by simp; omega) hb0
      rw [hlen] at this
      rw [this]
      have hmin : min best x = best := min_eq_left (le_of_not_lt hx)
      show List.foldl min best xs = List.foldl min (min best x) xs
      rw [hmin]

/-- The entry at the first-minimum index is the running minimum of the
whole list. -/
lemma argminIdx_getD (x : ℝ) (xs : List ℝ) :
    (x :: xs).getD (argminIdx (x :: xs)) 0 = List.foldl min x xs := by
  have := argminAux_getD xs [x] x 0 (by simp) (by simp)
  simpa [argminIdx] using this

/-- The running minimum is bounded by its seed. -/
lemma foldl_min_le_init (xs : List ℝ) : ∀ b : ℝ, List.foldl min b xs ≤ b := by
  induction xs with
  | nil => intro b; simp
  | cons x xs ih =>
    intro b
    calc List.foldl min (min b x) xs ≤ min b x := ih (min b x)
    _ ≤ b := min_le_left b x

/-- The running minimum is bounded by every entry. -/
lemma foldl_min_le_mem (xs : List ℝ) :
    ∀ (b y : ℝ), y ∈ xs → List.foldl min b xs ≤ y := by
  induction xs with
  | nil => intro b y hy; simp at hy
  | cons x xs ih =>
    intro b y hy
    rcases List.mem_cons.mp hy with h | h
    · subst h
      calc List.foldl min (min b y) xs ≤ min b y := foldl_min_le_init xs _
      _ ≤ y := min_le_right b y
    · exact ih (min b x) y h

/-- An out-of-range `getD` falls back to the default, so with an in-list
default the result is always a member. -/
lemma getD_mem_of_default_mem {α : Type} (l : List α) (n : ℕ) (d : α)
    (hd : d ∈ l) : l.getD n d ∈ l := by
  by_cases h : n < l.length
  · rw [List.getD_eq_getElem l d h]
    exact List.getElem_mem h
  · rw [List.getD_eq_default l d (by omega)]
    exact hd

/-- On a non-empty list the matcher literally computes the guarded
argmin selection. -/
lemma findBestMatch_eq (q : List ℝ) (t : ℝ) (e : EmbRec) (es : List EmbRec) :
    findBestMatch q (e :: es) t =
      if (distList q (e :: es)).getD (argminIdx (distList q (e :: es))) 0 < t
      then (some ((e :: es).getD (argminIdx (distList q (e :: es))) e),
            some ((distList q (e :: es)).getD
              (argminIdx (distList q (e :: es))) 0))
      else (none,
            some ((distList q (e :: es)).getD
              (argminIdx (distList q (e :: es))) 0)) := by
  simp only [findBestMatch]

/-- The entry at the first-minimum index bounds every member. -/
lemma getD_argmin_le (d0 : ℝ) (ds : List ℝ) (y : ℝ) (hy : y ∈ d0 :: ds) :
    (d0 :: ds).getD (argminIdx (d0 :: ds)) 0 ≤ y := by
  rw [argminIdx_getD]
  rcases List.mem_cons.mp hy with h | h
  · subst h
    exact foldl_min_le_init _ _
  · exact foldl_min_le_mem _ _ _ h

/-- The minimum-selection property of the matcher: the reported distance
is the smallest normalized distance over the reference list. -/
lemma distList_min (q : List ℝ) (e : EmbRec) (es : List EmbRec) :
    ∀ r ∈ e :: es,
      (distList q (e :: es)).getD (argminIdx (distList q (e :: es))) 0 ≤
        euclid (normEps r.vec) (normEps q) := by
  intro r hr
  have hL : distList q (e :: es) =
      euclid (normEps e.vec) (normEps q) ::
        es.map (fun r => euclid (normEps r.vec) (normEps q)) := by
    simp [distList]
  have hy0 := List.mem_map_of_mem
    (fun r : EmbRec => euclid (normEps r.vec) (normEps q)) hr
  rw [List.map_cons] at hy0
  rw [hL]
  exact getD_argmin_le _ _ _ hy0

/-- Inside the index range, the selected distance is the distance of the
selected reference. -/
lemma distList_getD_sel (q : List ℝ) (e : EmbRec) (es : List EmbRec) :
    (distList q (e :: es)).getD (argminIdx (distList q (e :: es))) 0 =
      euclid (normEps ((e :: es).getD (argminIdx (distList q (e :: es))) e).vec)
        (normEps q) := by
  have hmap : distList q (e :: es) =
      (e :: es).map (fun r => euclid (normEps r.vec) (normEps q)) := rfl
  have hcons : distList q (e :: es) =
      euclid (normEps e.vec) (normEps q) ::
        es.map (fun r => euclid (normEps r.vec) (normEps q)) := by
    simp [distList]
  have hlen : (distList q (e :: es)).length = (e :: es).length := by
    rw [hmap]
    simp
  have h2 : argminIdx (distList q (e :: es)) < (distList q (e :: es)).length := by
    rw [hcons]
    exact argminIdx_lt _ _
  have hidx : argminIdx (distList q (e :: es)) < (e :: es).length := by
    rw [← hlen]
    exact h2
  rw [List.getD_eq_getElem _ _ h2, List.getD_eq_getElem _ _ hidx]
  simp only [hmap, List.getElem_map]

noncomputable section

/-- Query descriptor of the end-to-end scenario; its epsilon-normalized
form is exactly `[1/2, 0]`. -/
def qVec : List ℝ := [1e-8, 0]

/-- Subject 1's reference descriptor: normalizes to `[8/25, 6/25]`, at
distance exactly 0.3 from the normalized query. -/
def anaVec : List ℝ := [8 / 15 * 1e-8, 2 / 5 * 1e-8]

/-- Subject 2's reference descriptor: normalizes to `[-2/5, 0]`, at
distance exactly 0.9 from the normalized query. -/
def brunoVec : List ℝ := [-(2 / 3 * 1e-8), 0]

/-- Reference record of subject 1, "Ana". -/
def ana : EmbRec := { id := some 1, name := some "Ana", cpf := none, vec := anaVec }

/-- Reference record of subject 2, "Bruno". -/
def bruno : EmbRec :=
  { id := some 2, name := some "Bruno", cpf := none, vec := brunoVec }

end

/-- The norm of the query vector of the scenario. -/
lemma l2norm_qVec : l2norm qVec = 1e-8 := by
  unfold l2norm sumSq qVec
  simp only [List.map_cons, List.map_nil, List.sum_cons, List.sum_nil]
  have h : ((1e-8 : ℝ) ^ 2 + (0 ^ 2 + 0)) = (1e-8 : ℝ) ^ 2 := by ring
  rw [h, Real.sqrt_sq (by norm_num)]

/-- The epsilon-normalized query vector. -/
lemma normEps_qVec : normEps qVec = [1 / 2, 0] := by
  unfold normEps
  rw [l2norm_qVec]
  unfold qVec
  simp only [List.map_cons, List.map_nil]
  norm_num

/-- The norm of subject 1's reference vector. -/
lemma l2norm_anaVec : l2norm anaVec = 2 / 3 * 1e-8 := by
  unfold l2norm sumSq anaVec
  simp only [List.map_cons, List.map_nil, List.sum_cons, List.sum_nil]
  have h : ((8 / 15 * (1e-8 : ℝ)) ^ 2 + ((2 / 5 * (1e-8 : ℝ)) ^ 2 + 0)) =
      (2 / 3 * (1e-8 : ℝ)) ^ 2 := by norm_num
  rw [h, Real.sqrt_sq (by norm_num)]

/-- The epsilon-normalized reference vector of subject 1. -/
lemma normEps_anaVec : normEps anaVec = [8 / 25, 6 / 25] := by
  unfold normEps
  rw [l2norm_anaVec]
  unfold anaVec
  simp only [List.map_cons, List.map_nil]
  norm_num

/-- The norm of subject 2's reference vector. -/
lemma l2norm_brunoVec : l2norm brunoVec = 2 / 3 * 1e-8 := by
  unfold l2norm sumSq brunoVec
  simp only [List.map_cons, List.map_nil, List.sum_cons, List.sum_nil]
  have h : ((-(2 / 3 * (1e-8 : ℝ))) ^ 2 + (0 ^ 2 + 0)) =
      (2 / 3 * (1e-8 : ℝ)) ^ 2 := by ring
  rw [h, Real.sqrt_sq (by norm_num)]

/-- The epsilon-normalized reference vector of subject 2. -/
lemma normEps_brunoVec : normEps brunoVec = [-(2 / 5), 0] := by
  unfold normEps
  rw [l2norm_brunoVec]
  unfold brunoVec
  simp only [List.map_cons, List.map_nil]
  norm_num

/-- The normalized distance of the query to subject 1 is exactly 0.3. -/
lemma d_ana : euclid (normEps anaVec) (normEps qVec) = 3 / 10 := by
  rw [normEps_anaVec, normEps_qVec]
  unfold euclid vsub l2norm sumSq
  simp only [List.zipWith_cons_cons, List.zipWith_nil_right, List.map_cons,
    List.map_nil, List.sum_cons, List.sum_nil]
  have h : (((8 : ℝ) / 25 - 1 / 2) ^ 2 + ((6 / 25 - 0) ^ 2 + 0)) =
      ((3 : ℝ) / 10) ^ 2 := by norm_num
  rw [h, Real.sqrt_sq (by norm_num)]

/-- The normalized distance of the query to subject 2 is exactly 0.9. -/
lemma d_bruno : euclid (normEps brunoVec) (normEps qVec) = 9 / 10 := by
  rw [normEps_brunoVec, normEps_qVec]
  unfold euclid vsub l2norm sumSq
  simp only [List.zipWith_cons_cons, List.zipWith_nil_right, List.map_cons,
    List.map_nil, List.sum_cons, List.sum_nil]
  have h : ((-((2 : ℝ) / 5) - 1 / 2) ^ 2 + ((0 - 0) ^ 2 + 0)) =
      ((9 : ℝ) / 10) ^ 2 := by norm_num
  rw [h, Real.sqrt_sq (by norm_num)]

/-- The distance row of the scenario evaluates to `[0.3, 0.9]`. -/
lemma distList_scenario : distList qVec [ana, bruno] = [3 / 10, 9 / 10] := by
  unfold distList
  simp only [List.map_cons, List.map_nil]
  rw [show ana.vec = anaVec from rfl, show bruno.vec = brunoVec from rfl]
  rw [d_ana, d_bruno]

/-- The matcher on the scenario returns subject 1 at distance 0.3. -/
lemma findBestMatch_scenario :
    findBestMatch qVec [ana, bruno] DEFAULT_THRESHOLD =
      (some ana, some (3 / 10)) := by
  have hidx : argminIdx [(3 : ℝ) / 10, 9 / 10] = 0 := by
    unfold argminIdx argminAux
    rw [if_neg (by norm_num)]
    rfl
  rw [findBestMatch_eq, distList_scenario, hidx]
  simp only [List.getD_cons_zero]
  rw [if_pos (by norm_num [DEFAULT_THRESHOLD])]

/-- Claim C3: on every non-empty reference list the matcher reports the
minimum of the epsilon-normalized Euclidean distances, returns a
reference attaining that minimum exactly when the minimum is strictly
below the threshold, and `none` otherwise; concretely, on references
{1: Ana at normalized distance 0.3, 2: Bruno at 0.9} with the default
threshold 0.6, it returns subject 1 at distance 0.3. -/
theorem claim_C3_distance_matcher :
    (∀ (q : List ℝ) (t : ℝ) (e : EmbRec) (es : List EmbRec),
      (findBestMatch q (e :: es) t).2 =
        some ((distList q (e :: es)).getD (argminIdx (distList q (e :: es))) 0) ∧
      (∀ r ∈ e :: es,
        (distList q (e :: es)).getD (argminIdx (distList q (e :: es))) 0 ≤
          euclid (normEps r.vec) (normEps q)) ∧
      ((distList q (e :: es)).getD (argminIdx (distList q (e :: es))) 0 < t →
        ∃ rm ∈ e :: es,
          (findBestMatch q (e :: es) t).1 = some rm ∧
          euclid (normEps rm.vec) (normEps q) =
            (distList q (e :: es)).getD (argminIdx (distList q (e :: es))) 0) ∧
      (¬ (distList q (e :: es)).getD (argminIdx (distList q (e :: es))) 0 < t →
        (findBestMatch q (e :: es) t).1 = none)) ∧
    (findBestMatch qVec [ana, bruno] DEFAULT_THRESHOLD =
        (some ana, some (3 / 10)) ∧
      euclid (normEps anaVec) (normEps qVec) = 3 / 10 ∧
      euclid (normEps brunoVec) (normEps qVec) = 9 / 10 ∧
      DEFAULT_THRESHOLD = 6 / 10) := by
  constructor
  · intro q t e es
    by_cases hlt :
        (distList q (e :: es)).getD (argminIdx (distList q (e :: es))) 0 < t
    · rw [findBestMatch_eq, if_pos hlt]
      refine ⟨rfl, distList_min q e es, ?_, ?_⟩
      · intro _
        refine ⟨(e :: es).getD (argminIdx (distList q (e :: es))) e,
          getD_mem_of_default_mem _ _ _ (List.mem_cons_self e es), rfl, ?_⟩
        exact (distList_getD_sel q e es).symm
      · intro hn
        exact absurd hlt hn
    · rw [findBestMatch_eq, if_neg hlt]
      refine ⟨rfl, distList_min q e es, ?_, fun _ => rfl⟩
      intro hc
      exact absurd hc hlt
  · exact ⟨findBestMatch_scenario, d_ana, d_bruno, by norm_num [DEFAULT_THRESHOLD]⟩

/-- Witness for C3: the end-to-end scenario instance extracted from the
theorem. -/
theorem claim_C3_witness :
    findBestMatch qVec [ana, bruno] DEFAULT_THRESHOLD =
      (some ana, some (3 / 10)) :=
  claim_C3_distance_matcher.2.1

/-! ## Claim C4 — classifier acceptance and the distance fallback -/

/-- A classifier model that predicts class 3 with probability 0.95 (and
class 1 with 0.05). -/
def svm3 : SvmModel :=
  { predictProba := fun _ => Except.ok [1 / 20, 19 / 20], classes := [1, 3] }

/-- The active-subject set of the scenario: subject 3 has been deleted. -/
def active12 : List ℤ := [1, 2]

/-- The top class of the scenario's probability row is index 1. -/
lemma argmaxIdx_scenario : argmaxIdx [(1 : ℚ) / 20, 19 / 20] = 1 := by
  unfold argmaxIdx argmaxAux
  rw [if_pos (by norm_num)]
  rfl

/-- On the scenario, the classifier path rejects the confident prediction
of the deleted subject 3 and yields no match (while still reporting the
probability). -/
lemma classifierPath_scenario :
    classifierPath svm3 (fun _ => none) active12 qVec =
      (none, some (19 / 20)) := by
  unfold classifierPath svm3
  simp only [argmaxIdx_scenario]
  norm_num [active12, CLASSIFIER_MIN_PROBA]

/-- The classifier path unfolded on a successful non-empty prediction. -/
lemma classifierPath_ok (c : SvmModel) (meta : ℤ → Option SubjectMeta)
    (active : List ℤ) (q : List ℝ) (p : ℚ) (ps : List ℚ)
    (hp : c.predictProba q = Except.ok (p :: ps))
    (hbi : argmaxIdx (p :: ps) < c.classes.length) :
    classifierPath c meta active q =
      if (p :: ps).getD (argmaxIdx (p :: ps)) 0 ≥ CLASSIFIER_MIN_PROBA ∧
          c.classes.getD (argmaxIdx (p :: ps)) 0 ∈ active then
        (some { id := some (c.classes.getD (argmaxIdx (p :: ps)) 0),
                name := some (match meta (c.classes.getD (argmaxIdx (p :: ps)) 0) with
                              | some m => m.name
                              | none => toString (c.classes.getD (argmaxIdx (p :: ps)) 0)),
                cpf := match meta (c.classes.getD (argmaxIdx (p :: ps)) 0) with
                       | some m => m.cpf
                       | none => none },
         some ((p :: ps).getD (argmaxIdx (p :: ps)) 0))
      else (none, some ((p :: ps).getD (argmaxIdx (p :: ps)) 0)) := by
  unfold classifierPath
  rw [hp]
  simp only [if_pos hbi]

/-- Claim C4: the classifier's top class is accepted exactly when its
probability reaches 0.8 and the predicted id is active (and then the
match carries that id); whenever the classifier path yields no match —
low confidence, inactive id, prediction error, or no bundle — the engine
falls through to the distance search over the filtered references.
Concretely, a 0.95-confident prediction of deleted subject 3 is ignored
and the distance path returns subject 1 at distance 0.3. -/
theorem claim_C4_classifier_first :
    (∀ (c : SvmModel) (meta : ℤ → Option SubjectMeta) (active : List ℤ)
       (q : List ℝ) (p : ℚ) (ps : List ℚ),
      c.predictProba q = Except.ok (p :: ps) →
      argmaxIdx (p :: ps) < c.classes.length →
      (((classifierPath c meta active q).1 ≠ none) ↔
        ((p :: ps).getD (argmaxIdx (p :: ps)) 0 ≥ CLASSIFIER_MIN_PROBA ∧
         c.classes.getD (argmaxIdx (p :: ps)) 0 ∈ active)) ∧
      (∀ m, (classifierPath c meta active q).1 = some m →
        m.id = some (c.classes.getD (argmaxIdx (p :: ps)) 0))) ∧
    (∀ (c : SvmModel) (meta : ℤ → Option SubjectMeta) (active : List ℤ)
       (q : List ℝ) (t : ℝ) (e : EmbRec) (es : List EmbRec),
      (classifierPath c meta active q).1 = none →
      computeMatch (some c) meta active (e :: es) q t =
        ((findBestMatch q (e :: es) t).1.map toMatch,
         (findBestMatch q (e :: es) t).2,
         (classifierPath c meta active q).2)) ∧
    (∀ (meta : ℤ → Option SubjectMeta) (active : List ℤ)
       (q : List ℝ) (t : ℝ) (e : EmbRec) (es : List EmbRec),
      computeMatch none meta active (e :: es) q t =
        ((findBestMatch q (e :: es) t).1.map toMatch,
         (findBestMatch q (e :: es) t).2, none)) ∧
    (classifierPath svm3 (fun _ => none) active12 qVec =
        (none, some (19 / 20)) ∧
     computeMatch (some svm3) (fun _ => none) active12 [ana, bruno] qVec
         DEFAULT_THRESHOLD =
       (some (toMatch ana), some (3 / 10), some (19 / 20))) := by
  refine ⟨?_, ?_, ?_, ?_, ?_⟩
  · intro c meta active q p ps hp hbi
    rw [classifierPath_ok c meta active q p ps hp hbi]
    by_cases hacc : (p :: ps).getD (argmaxIdx (p :: ps)) 0 ≥ CLASSIFIER_MIN_PROBA ∧
        c.classes.getD (argmaxIdx (p :: ps)) 0 ∈ active
    · rw [if_pos hacc]
      refine ⟨by simpa using hacc, ?_⟩
      intro m hm
      simp only [Option.some.injEq] at hm
      rw [← hm]
    · rw [if_neg hacc]
      refine ⟨by simpa using hacc, ?_⟩
      intro m hm
      simp at hm
  · intro c meta active q t e es hcp
    unfold computeMatch
    simp only [hcp]
  · intro meta active q t e es
    unfold computeMatch
    simp only []
  · exact classifierPath_scenario
  · have hcp : (classifierPath svm3 (fun _ => none) active12 qVec).1 = none := by
      rw [classifierPath_scenario]
    unfold computeMatch
    simp only [hcp, findBestMatch_scenario, classifierPath_scenario]
    rfl

/-- Witness for C4: the end-to-end fallthrough instance extracted from
the theorem. -/
theorem claim_C4_witness :
    computeMatch (some svm3) (fun _ => none) active12 [ana, bruno] qVec
        DEFAULT_THRESHOLD =
      (some (toMatch ana), some (3 / 10), some (19 / 20)) :=
  claim_C4_classifier_first.2.2.2.2

/-! ## Claim C1 — only active subject ids are ever acted upon -/

/-- A match accepted by the classifier path carries an active id. -/
lemma classifierPath_fst_active (c : SvmModel) (meta : ℤ → Option SubjectMeta)
    (active : List ℤ) (q : List ℝ) (m : MatchRec)
    (h : (classifierPath c meta active q).1 = some m) :
    ∃ pid, m.id = some pid ∧ pid ∈ active := by
  cases hpred : c.predictProba q with
  | error u =>
    have hval : classifierPath c meta active q = (none, none) := by
      unfold classifierPath
      rw [hpred]
    rw [hval] at h
    simp at h
  | ok probs =>
    cases probs with
    | nil =>
      have hval : classifierPath c meta active q = (none, none) := by
        unfold classifierPath
        rw [hpred]
      rw [hval] at h
      simp at h
    | cons p ps =>
      by_cases hbi : argmaxIdx (p :: ps) < c.classes.length
      · rw [classifierPath_ok c meta active q p ps hpred hbi] at h
        by_cases hacc : (p :: ps).getD (argmaxIdx (p :: ps)) 0 ≥
            CLASSIFIER_MIN_PROBA ∧
            c.classes.getD (argmaxIdx (p :: ps)) 0 ∈ active
        · rw [if_pos hacc] at h
          simp only [Option.some.injEq] at h
          exact ⟨_, by rw [← h], hacc.2⟩
        · rw [if_neg hacc] at h
          simp at h
      · have hval : classifierPath c meta active q =
            (none, some ((p :: ps).getD (argmaxIdx (p :: ps)) 0)) := by
          unfold classifierPath
          rw [hpred]
          simp only [if_neg hbi]
        rw [hval] at h
        simp at h

/-- Every record the active filter keeps has an id in the active set. -/
lemma filterActive_mem (embs : List EmbRec) (active : List ℤ) :
    ∀ e ∈ filterActive embs active,
      ∃ sid, e.id = some sid ∧ sid ∈ active := by
  intro e he
  have hp := (List.mem_filter.mp he).2
  cases hid : e.id with
  | none => rw [hid] at hp; simp at hp
  | some sid =>
    rw [hid] at hp
    exact ⟨sid, rfl, by simpa using hp⟩

/-- A match returned by the matcher is a member of its reference list. -/
lemma findBestMatch_fst_mem (q : List ℝ) (t : ℝ) (e : EmbRec)
    (es : List EmbRec) (m : EmbRec)
    (h : (findBestMatch q (e :: es) t).1 = some m) : m ∈ e :: es := by
  rw [findBestMatch_eq] at h
  split at h
  · simp only [Option.some.injEq] at h
    rw [← h]
    exact getD_mem_of_default_mem _ _ _ (List.mem_cons_self e es)
  · simp at h

/-- A match found by the distance search over the active-filtered
references carries an active id. -/
lemma findBestMatch_filterActive_active (q : List ℝ) (t : ℝ)
    (embs : List EmbRec) (active : List ℤ) (m : EmbRec)
    (h : (findBestMatch q (filterActive embs active) t).1 = some m) :
    ∃ sid, m.id = some sid ∧ sid ∈ active := by
  cases hfa : filterActive embs active with
  | nil =>
    rw [hfa] at h
    simp [findBestMatch] at h
  | cons e es =>
    rw [hfa] at h
    have hmem := findBestMatch_fst_mem q t e es m h
    rw [← hfa] at hmem
    exact filterActive_mem embs active m hmem

/-- Any match the engine produces over the active-filtered references
carries an active id, whichever path produced it. -/
lemma computeMatch_fst_active (model : Option SvmModel)
    (meta : ℤ → Option SubjectMeta) (active : List ℤ) (embs : List EmbRec)
    (q : List ℝ) (t : ℝ) (m : MatchRec)
    (h : (computeMatch model meta active (filterActive embs active) q t).1 =
      some m) :
    ∃ sid, m.id = some sid ∧ sid ∈ active := by
  unfold computeMatch at h
  cases model with
  | none =>
    simp only [] at h
    split at h
    · simp at h
    next e es heq =>
      simp only [] at h
      obtain ⟨em, hem, hm⟩ := Option.map_eq_some'.mp h
      have hact := findBestMatch_filterActive_active q t embs active em
        (by rw [heq]; exact hem)
      rw [← hm]
      exact hact
  | some c =>
    simp only [] at h
    split at h
    next m1 heq =>
      simp only [Option.some.injEq] at h
      rw [← h]
      exact classifierPath_fst_active c meta active q m1 heq
    next heq =>
      split at h
      · simp at h
      next e es heq2 =>
        simp only [] at h
        obtain ⟨em, hem, hm⟩ := Option.map_eq_some'.mp h
        have := findBestMatch_filterActive_active q t embs active em
          (by rw [heq2]; exact hem)
        rw [← hm]
        exact this

/-- A match surviving the re-check is the same match, with an id in the
active set. -/
lemma recheckMatch_some (active : List ℤ) (mo : Option MatchRec)
    (mr : MatchRec) (h : recheckMatch active mo = some mr) :
    mo = some mr ∧ ∃ sid, mr.id = some sid ∧ sid ∈ active := by
  unfold recheckMatch at h
  split at h
  · simp at h
  next m0 =>
    split at h
    · simp at h
    next mid hmid =>
      split at h
      next hmem =>
        simp only [Option.some.injEq] at h
        subst h
        exact ⟨rfl, mid, hmid, hmem⟩
      next hmem => simp at h

/-- Every access event a frame emits stems from an accepted match whose
id the event carries. -/
lemma processFrame_events_from_match (cfg : SessConfig) (s : SessState)
    (inp : FrameInput) :
    ∀ ev ∈ (processFrame cfg s inp).events,
      ∃ rep m, inp.rep = some rep ∧
        (computeMatch cfg.model cfg.meta cfg.active cfg.filtered rep.emb
          cfg.threshold).1 = some m ∧
        m.id = some ev.id := by
  intro ev hev
  cases hrep : inp.rep with
  | none => simp [processFrame, hrep] at hev
  | some rep =>
    cases hb : rep.area.bind (clampBox inp.frameW inp.frameH) with
    | none => simp [processFrame, hrep, hb] at hev
    | some b =>
      cases hm : (computeMatch cfg.model cfg.meta cfg.active cfg.filtered
          rep.emb cfg.threshold).1 with
      | none => simp [processFrame, hrep, hb, hm] at hev
      | some m =>
        by_cases hlv : decide ((livenessStep s.prevCrop s.staticFrames
            rep.crop).1 < LIVENESS_STATIC_FRAMES) = false
        · simp [processFrame, hrep, hb, hm, hlv] at hev
        · cases hmid : m.id with
          | none => simp [processFrame, hrep, hb, hm, hlv, hmid] at hev
          | some cid =>
            cases hfired : (gateStep s.gate cid inp.now).2 with
            | false =>
              simp [processFrame, hrep, hb, hm, hlv, hmid, hfired] at hev
            | true =>
              simp [processFrame, hrep, hb, hm, hlv, hmid, hfired] at hev
              refine ⟨rep, m, rfl, hm, ?_⟩
              rw [hmid, hev]

/-- The on-screen match of a frame is the re-checked match. -/
lemma processFrame_shown_recheck (cfg : SessConfig) (s : SessState)
    (inp : FrameInput) (rep : RepInfo) (hrep : inp.rep = some rep) :
    (processFrame cfg s inp).shown =
      recheckMatch cfg.active
        (computeMatch cfg.model cfg.meta cfg.active cfg.filtered rep.emb
          cfg.threshold).1 := by
  simp only [processFrame, hrep]

/-- Claim C1: the classifier path, the distance path over the
active-filtered references, and the engine as a whole only ever produce
matches with an active subject id; the display re-check passes only such
matches through; and every access event a frame logs carries an active
id. -/
theorem claim_C1_active_only :
    (∀ (c : SvmModel) (meta : ℤ → Option SubjectMeta) (active : List ℤ)
       (q : List ℝ) (m : MatchRec),
      (classifierPath c meta active q).1 = some m →
      ∃ pid, m.id = some pid ∧ pid ∈ active) ∧
    (∀ (q : List ℝ) (t : ℝ) (embs : List EmbRec) (active : List ℤ)
       (m : EmbRec),
      (findBestMatch q (filterActive embs active) t).1 = some m →
      ∃ sid, m.id = some sid ∧ sid ∈ active) ∧
    (∀ (model : Option SvmModel) (meta : ℤ → Option SubjectMeta)
       (active : List ℤ) (embs : List EmbRec) (q : List ℝ) (t : ℝ)
       (m : MatchRec),
      (computeMatch model meta active (filterActive embs active) q t).1 =
        some m →
      ∃ sid, m.id = some sid ∧ sid ∈ active) ∧
    (∀ (active : List ℤ) (mo : Option MatchRec) (mr : MatchRec),
      recheckMatch active mo = some mr →
      mo = some mr ∧ ∃ sid, mr.id = some sid ∧ sid ∈ active) ∧
    (∀ (cfg : SessConfig) (embs : List EmbRec) (s : SessState)
       (inp : FrameInput),
      cfg.filtered = filterActive embs cfg.active →
      (∀ ev ∈ (processFrame cfg s inp).events, ev.id ∈ cfg.active) ∧
      (∀ mr, (processFrame cfg s inp).shown = some mr →
        ∃ sid, mr.id = some sid ∧ sid ∈ cfg.active)) := by
  refine ⟨classifierPath_fst_active, findBestMatch_filterActive_active,
    computeMatch_fst_active, recheckMatch_some, ?_⟩
  intro cfg embs s inp hfil
  constructor
  · intro ev hev
    obtain ⟨rep, m, hrep, hm, hmid⟩ :=
      processFrame_events_from_match cfg s inp ev hev
    rw [hfil] at hm
    obtain ⟨sid, hsid, hmem⟩ :=
      computeMatch_fst_active cfg.model cfg.meta cfg.active embs rep.emb
        cfg.threshold m hm
    rw [hmid] at hsid
    have : ev.id = sid := by simpa using hsid
    rw [this]
    exact hmem
  · intro mr hmr
    cases hrep : inp.rep with
    | none => simp [processFrame, hrep] at hmr
    | some rep =>
      rw [processFrame_shown_recheck cfg s inp rep hrep] at hmr
      exact (recheckMatch_some cfg.active _ mr hmr).2

/-- A classifier model that predicts the single class 1 with
probability 1. -/
def svmDemo : SvmModel :=
  { predictProba := fun _ => Except.ok [1], classes := [1] }

/-- The classifier path accepts the demo prediction of active subject 1. -/
lemma classifierPath_demo :
    classifierPath svmDemo (fun _ => none) [1] [] =
      (some { id := some 1, name := some (toString (1 : ℤ)), cpf := none },
       some 1) := by
  unfold classifierPath svmDemo
  norm_num [argmaxIdx, argmaxAux, CLASSIFIER_MIN_PROBA]

/-- The match engine on the demo configuration yields the classifier
match. -/
lemma computeMatch_demo :
    (computeMatch (some svmDemo) (fun _ => none) [1] (filterActive [] [1]) []
        DEFAULT_THRESHOLD).1 =
      some { id := some 1, name := some (toString (1 : ℤ)), cpf := none } := by
  unfold computeMatch
  simp only [classifierPath_demo]

/-- Witness for C1 at the demo configuration: the produced match carries
an id in the active set. -/
theorem claim_C1_witness :
    ∃ sid, ({ id := some 1, name := some (toString (1 : ℤ)), cpf := none } :
        MatchRec).id = some sid ∧ sid ∈ [(1 : ℤ)] :=
  claim_C1_active_only.2.2.1 (some svmDemo) (fun _ => none) [1] [] []
    DEFAULT_THRESHOLD _ computeMatch_demo

end FacePro
